import Mathlib

/-!
# PawSync — verification of the OAuth state codec and mirror pipeline

A shallow embedding of the PawSync Supabase edge functions
(`oauth-authorize`, `oauth-callback`, and the activity-mirror function)
over `List Nat` byte strings, together with proofs of the specified
properties of the state-token codec, the callback handler, the
token-refresh helper, and the GPX generator.

Modelling conventions:
* JavaScript strings are modelled as their UTF-8 byte sequences
  (`List Nat`, each entry < 256).  `TextEncoder`/`TextDecoder` are
  therefore the identity.  Splitting on the character `'.'` coincides
  with splitting on the byte 46 because 46 never occurs inside a UTF-8
  continuation sequence.
* `Uint8Array` values are `List Nat`.
* Network and database effects are passed in explicitly as oracle
  records, and handler outputs carry the resulting store state and the
  list of uploads performed, so that claims about "no second upload"
  or "no persisted change" are directly statable.
-/

set_option maxRecDepth 200000

deriving instance DecidableEq for Except

namespace PawSync

/-! ## Base64 / base64url (translated from `btoa`/`atob` plus the
url-safe character replacement and `=`-stripping/padding done in
`base64urlEncode` (oauth-authorize) and `base64urlDecode`
(oauth-callback)). -/

/-- The base64 digit alphabet as a function from 6-bit values to ASCII codes. -/
def b64c (v : Nat) : Nat :=
  if v < 26 then 65 + v
  else if v < 52 then 71 + v
  else if v < 62 then v - 4
  else if v = 62 then 43 else 47

/-- Inverse of the base64 alphabet (`none` on characters outside it). -/
def b64v (c : Nat) : Option Nat :=
  if 65 ≤ c ∧ c ≤ 90 then some (c - 65)
  else if 97 ≤ c ∧ c ≤ 122 then some (c - 71)
  else if 48 ≤ c ∧ c ≤ 57 then some (c + 4)
  else if c = 43 then some 62
  else if c = 47 then some 63
  else none

/-- `btoa` on a byte string: groups of three bytes become four base64
characters, with `=` (61) padding for a short final group. -/
def b64e : List Nat → List Nat
  | [] => []
  | [a] => [b64c (a / 4), b64c (a % 4 * 16), 61, 61]
  | [a, b] => [b64c (a / 4), b64c (a % 4 * 16 + b / 16), b64c (b % 16 * 4), 61]
  | a :: b :: c :: r =>
      b64c (a / 4) :: b64c (a % 4 * 16 + b / 16) :: b64c (b % 16 * 4 + c / 64) ::
        b64c (c % 64) :: b64e r

/-- The `+ → -`, `/ → _` replacement done after `btoa`. -/
def urlTr (c : Nat) : Nat := if c = 43 then 45 else if c = 47 then 95 else c

/-- The `- → +`, `_ → /` replacement done before `atob`. -/
def urlInv (c : Nat) : Nat := if c = 45 then 43 else if c = 95 then 47 else c

/-- `base64urlEncode` (oauth-authorize lines 4-9): `btoa`, url-safe
replacement, and stripping of every `=`. -/
def base64urlEncode (l : List Nat) : List Nat :=
  ((b64e l).map urlTr).filter (fun c => c ≠ 61)

/-- The `while (str.length % 4) str += '='` re-padding loop of
`base64urlDecode` (oauth-callback lines 5-12). -/
def padEq (l : List Nat) : List Nat :=
  l ++ List.replicate ((4 - l.length % 4) % 4) 61

/-- `atob`: four base64 characters become three bytes; a final
`xx==`/`xxx=` group yields one/two bytes; anything else throws,
modelled as `none`. -/
def atobF : List Nat → Option (List Nat)
  | [] => some []
  | a :: b :: c :: d :: r =>
      match b64v a, b64v b with
      | some va, some vb =>
          if d = 61 then
            if c = 61 then
              if r = [] then some [va * 4 + vb / 16] else none
            else
              match b64v c with
              | some vc =>
                  if r = [] then some [va * 4 + vb / 16, vb % 16 * 16 + vc / 4] else none
              | none => none
          else
            match b64v c, b64v d with
            | some vc, some vd =>
                (atobF r).map (fun t =>
                  (va * 4 + vb / 16) :: (vb % 16 * 16 + vc / 4) :: (vc % 4 * 64 + vd) :: t)
            | _, _ => none
      | _, _ => none
  | _ => none

/-- `base64urlDecode` (oauth-callback lines 5-12): url-safe replacement
undone, `=` re-padding, then `atob`. -/
def base64urlDecode (l : List Nat) : Option (List Nat) :=
  atobF (padEq (l.map urlInv))

/-! ## SHA-256 and HMAC-SHA256 (the WebCrypto `HMAC`/`SHA-256` used by
`hmacSha256` in oauth-authorize and oauth-callback), over `Nat` words
reduced modulo `2 ^ 32`. -/

/-- Truncation to a 32-bit word. -/
def w32 (x : Nat) : Nat := x % 4294967296

/-- 32-bit right rotation. -/
def rotr (n x : Nat) : Nat := w32 ((x >>> n) ||| (x <<< (32 - n)))

def shaCh (x y z : Nat) : Nat := (x &&& y) ^^^ ((x ^^^ 4294967295) &&& z)

def shaMaj (x y z : Nat) : Nat := (x &&& y) ^^^ (x &&& z) ^^^ (y &&& z)

def bigSigma0 (x : Nat) : Nat := rotr 2 x ^^^ rotr 13 x ^^^ rotr 22 x

def bigSigma1 (x : Nat) : Nat := rotr 6 x ^^^ rotr 11 x ^^^ rotr 25 x

def smallSigma0 (x : Nat) : Nat := rotr 7 x ^^^ rotr 18 x ^^^ (x >>> 3)

def smallSigma1 (x : Nat) : Nat := rotr 17 x ^^^ rotr 19 x ^^^ (x >>> 10)

def shaK : List Nat := [1116352408, 1899447441, 3049323471, 3921009573,
  961987163, 1508970993, 2453635748, 2870763221, 3624381080, 310598401,
  607225278, 1426881987, 1925078388, 2162078206, 2614888103, 3248222580,
  3835390401, 4022224774, 264347078, 604807628, 770255983, 1249150122,
  1555081692, 1996064986, 2554220882, 2821834349, 2952996808, 3210313671,
  3336571891, 3584528711, 113926993, 338241895, 666307205, 773529912,
  1294757372, 1396182291, 1695183700, 1986661051, 2177026350, 2456956037,
  2730485921, 2820302411, 3259730800, 3345764771, 3516065817, 3600352804,
  4094571909, 275423344, 430227734, 506948616, 659060556, 883997877,
  958139571, 1322822218, 1537002063, 1747873779, 1955562222, 2024104815,
  2227730452, 2361852424, 2428436474, 2756734187, 3204031479, 3329325298]

/-- The eight 32-bit working registers of the compression function. -/
structure Sha8 where
  a : Nat
  b : Nat
  c : Nat
  d : Nat
  e : Nat
  f : Nat
  g : Nat
  h : Nat
deriving DecidableEq

def sha8Init : Sha8 :=
  ⟨1779033703, 3144134277, 1013904242, 2773480762,
   1359893119, 2600822924, 528734635, 1541459225⟩

/-- Big-endian 32-bit words from a byte string, four bytes at a time. -/
def toWords : List Nat → List Nat
  | a :: b :: c :: d :: r => (a * 16777216 + b * 65536 + c * 256 + d) :: toWords r
  | _ => []

/-- Message-schedule extension; the accumulator holds the words most
recent first. -/
def extW : Nat → List Nat → List Nat
  | 0, r => r
  | fuel + 1, r =>
      extW fuel
        (w32 (smallSigma1 (r.getD 1 0) + r.getD 6 0 +
              smallSigma0 (r.getD 14 0) + r.getD 15 0) :: r)

/-- The 64-entry message schedule of one block. -/
def scheduleW (block : List Nat) : List Nat :=
  (extW 48 (toWords block).reverse).reverse

def roundStep (s : Sha8) (kw : Nat × Nat) : Sha8 :=
  let t1 := w32 (s.h + bigSigma1 s.e + shaCh s.e s.f s.g + kw.1 + kw.2)
  let t2 := w32 (bigSigma0 s.a + shaMaj s.a s.b s.c)
  ⟨w32 (t1 + t2), s.a, s.b, s.c, w32 (s.d + t1), s.e, s.f, s.g⟩

def compressBlock (s : Sha8) (block : List Nat) : Sha8 :=
  let s' := (shaK.zip (scheduleW block)).foldl roundStep s
  ⟨w32 (s.a + s'.a), w32 (s.b + s'.b), w32 (s.c + s'.c), w32 (s.d + s'.d),
   w32 (s.e + s'.e), w32 (s.f + s'.f), w32 (s.g + s'.g), w32 (s.h + s'.h)⟩

/-- Split a byte string into 64-byte blocks (fuel-based so that it is
structurally recursive). -/
def chunk64 : Nat → List Nat → List (List Nat)
  | 0, _ => []
  | fuel + 1, l => if l.isEmpty then [] else l.take 64 :: chunk64 fuel (l.drop 64)

/-- Big-endian 8-byte encoding of the 64-bit message bit length. -/
def be8 (n : Nat) : List Nat :=
  [n / 72057594037927936 % 256, n / 281474976710656 % 256,
   n / 1099511627776 % 256, n / 4294967296 % 256,
   n / 16777216 % 256, n / 65536 % 256, n / 256 % 256, n % 256]

/-- Big-endian bytes of one 32-bit word. -/
def wb (w : Nat) : List Nat :=
  [w / 16777216 % 256, w / 65536 % 256, w / 256 % 256, w % 256]

/-- SHA-256 padding: `0x80`, zeros to 56 mod 64, then the bit length. -/
def shaPad (m : List Nat) : List Nat :=
  m ++ 128 :: List.replicate ((119 - m.length % 64) % 64) 0 ++ be8 (m.length * 8)

/-- SHA-256 of a byte string. -/
def sha256F (m : List Nat) : List Nat :=
  let padded := shaPad m
  let s := (chunk64 padded.length padded).foldl compressBlock sha8Init
  wb s.a ++ wb s.b ++ wb s.c ++ wb s.d ++ wb s.e ++ wb s.f ++ wb s.g ++ wb s.h

/-- The HMAC-SHA256 digest (RFC 2104, as implemented by WebCrypto for
the imported raw key). -/
def hmacDigest (message secret : List Nat) : List Nat :=
  let k0 := if 64 < secret.length then sha256F secret else secret
  let k := k0 ++ List.replicate (64 - k0.length) 0
  sha256F ((k.map (fun b => b ^^^ 92)) ++ sha256F ((k.map (fun b => b ^^^ 54)) ++ message))

/-- `hmacSha256` (oauth-authorize lines 11-23, oauth-callback lines
14-30): the digest, base64url-encoded without padding.  Both copies of
the source function produce the same characters. -/
def hmacSha256 (message secret : List Nat) : List Nat :=
  base64urlEncode (hmacDigest message secret)

/-- `constantTimeEqual` (oauth-callback lines 32-39): length check,
then an or-accumulated xor over the paired bytes. -/
def constantTimeEqual (a b : List Nat) : Bool :=
  if a.length ≠ b.length then false
  else ((a.zip b).foldl (fun r p => r ||| (p.1 ^^^ p.2)) 0) == 0

/-- Known-answer test: SHA-256 of `"abc"`. -/
theorem sha256_kat :
    sha256F [97, 98, 99] =
      [186, 120, 22, 191, 143, 1, 207, 234, 65, 65, 64, 222, 93, 174, 34, 35,
       176, 3, 97, 163, 150, 23, 122, 156, 180, 16, 255, 97, 242, 0, 21, 173] := by
  decide

/-! ## The state payload and its JSON serialization.

`JSON.stringify` on the object literal built in oauth-authorize lines
84-92 emits the keys in insertion order with no whitespace; string
values are escaped with the standard JSON escapes and `exp` is printed
in decimal.  `JSON.parse` in oauth-callback line 108 is modelled by a
parser for exactly this object shape (the only shape the callback ever
feeds it after a successful signature check). -/

/-- The signed state payload `{userId, role, exp, nonce, codeVerifier}`
(oauth-authorize lines 84-90). -/
structure StatePayload where
  userId : List Nat
  role : List Nat
  exp : Nat
  nonce : List Nat
  codeVerifier : List Nat
deriving DecidableEq

def hexDig (x : Nat) : Nat := if x < 10 then 48 + x else 87 + x

/-- JSON escaping of one byte of a string value. -/
def escByte (b : Nat) : List Nat :=
  if b = 34 then [92, 34]
  else if b = 92 then [92, 92]
  else if b = 8 then [92, 98]
  else if b = 9 then [92, 116]
  else if b = 10 then [92, 110]
  else if b = 12 then [92, 102]
  else if b = 13 then [92, 114]
  else if b < 32 then [92, 117, 48, 48, hexDig (b / 16), hexDig (b % 16)]
  else [b]

def escStr : List Nat → List Nat
  | [] => []
  | b :: r => escByte b ++ escStr r

/-- Decimal digits of a number (fuel-based; `natDec` supplies enough
fuel for any argument). -/
def decChunk : Nat → Nat → List Nat → List Nat
  | 0, _, acc => acc
  | fuel + 1, n, acc =>
      if n < 10 then (48 + n) :: acc
      else decChunk fuel (n / 10) ((48 + n % 10) :: acc)

def natDec (n : Nat) : List Nat := decChunk (n + 1) n []

def pUserKey : List Nat := [123, 34, 117, 115, 101, 114, 73, 100, 34, 58, 34]

def pRoleKey : List Nat := [44, 34, 114, 111, 108, 101, 34, 58, 34]

def pExpKey : List Nat := [44, 34, 101, 120, 112, 34, 58]

def pNonceKey : List Nat := [44, 34, 110, 111, 110, 99, 101, 34, 58, 34]

def pCvKey : List Nat := [44, 34, 99, 111, 100, 101, 86, 101, 114, 105, 102,
  105, 101, 114, 34, 58, 34]

/-- `JSON.stringify(statePayload)` — the canonical JSON byte string of
the payload (oauth-authorize line 92). -/
def printPayload (p : StatePayload) : List Nat :=
  pUserKey ++ escStr p.userId ++ [34] ++
  pRoleKey ++ escStr p.role ++ [34] ++
  pExpKey ++ natDec p.exp ++
  pNonceKey ++ escStr p.nonce ++ [34] ++
  pCvKey ++ escStr p.codeVerifier ++ [34] ++ [125]

def hexVal (c : Nat) : Option Nat :=
  if 48 ≤ c ∧ c ≤ 57 then some (c - 48)
  else if 97 ≤ c ∧ c ≤ 102 then some (c - 87)
  else if 65 ≤ c ∧ c ≤ 70 then some (c - 55)
  else none

/-- The escape shortcuts of JSON: maps the character after a backslash
to the escaped byte (`none` for `u` and for invalid escapes). -/
def escShort (e : Nat) : Option Nat :=
  if e = 34 then some 34
  else if e = 92 then some 92
  else if e = 47 then some 47
  else if e = 98 then some 8
  else if e = 116 then some 9
  else if e = 110 then some 10
  else if e = 102 then some 12
  else if e = 114 then some 13
  else none

/-- Decode a single escape sequence (the input starts right after the
backslash); returns the decoded code unit and the remaining input. -/
def escStep (r : List Nat) : Option (Nat × List Nat) :=
  match r with
  | [] => none
  | e :: r2 =>
      match escShort e with
      | some v => some (v, r2)
      | none =>
          if e = 117 then
            match r2 with
            | h1 :: h2 :: h3 :: h4 :: r3 =>
                match hexVal h1, hexVal h2, hexVal h3, hexVal h4 with
                | some x1, some x2, some x3, some x4 =>
                    some (x1 * 4096 + x2 * 256 + x3 * 16 + x4, r3)
                | _, _, _, _ => none
            | _ => none
          else none

/-- Fuelled scanner for a JSON string body (the fuel is an upper bound
on the input length, supplied by `scanStr`). -/
def scanStrF : Nat → List Nat → Option (List Nat × List Nat)
  | 0, _ => none
  | _ + 1, [] => none
  | fuel + 1, b :: r =>
      if b = 34 then some ([], r)
      else if b = 92 then
        (escStep r).bind (fun vr => (scanStrF fuel vr.2).map (fun t => (vr.1 :: t.1, t.2)))
      else (scanStrF fuel r).map (fun t => (b :: t.1, t.2))

/-- Scan a JSON string body up to its closing quote, undoing escapes;
returns the decoded bytes and the input after the quote. -/
def scanStr (l : List Nat) : Option (List Nat × List Nat) := scanStrF l.length l

/-- Accumulating decimal scanner: consumes leading digits. -/
def parseDecAcc : Nat → List Nat → Nat × List Nat
  | a, [] => (a, [])
  | a, b :: r =>
      if 48 ≤ b ∧ b ≤ 57 then parseDecAcc (a * 10 + (b - 48)) r else (a, b :: r)

/-- Parse a decimal number (at least one digit). -/
def parseDec (l : List Nat) : Option (Nat × List Nat) :=
  match l with
  | b :: _ => if 48 ≤ b ∧ b ≤ 57 then some (parseDecAcc 0 l) else none
  | [] => none

/-- Drop an expected literal, or fail. -/
def matchPre : List Nat → List Nat → Option (List Nat)
  | [], l => some l
  | _ :: _, [] => none
  | p :: ps, b :: bs => if p = b then matchPre ps bs else none

/-- `JSON.parse` restricted to the canonical payload object shape. -/
def parsePayload (l : List Nat) : Option StatePayload := do
  let r1 ← matchPre pUserKey l
  let (u, r2) ← scanStr r1
  let r3 ← matchPre pRoleKey r2
  let (ro, r4) ← scanStr r3
  let r5 ← matchPre pExpKey r4
  let (e, r6) ← parseDec r5
  let r7 ← matchPre pNonceKey r6
  let (no, r8) ← scanStr r7
  let r9 ← matchPre pCvKey r8
  let (cv, r10) ← scanStr r9
  match r10 with
  | [125] => some ⟨u, ro, e, no, cv⟩
  | _ => none

/-! ## The state codec. -/

/-- `stateStr.split('.')` (oauth-callback line 94), on bytes. -/
def splitDot : List Nat → List (List Nat)
  | [] => [[]]
  | b :: r =>
      if b = 46 then [] :: splitDot r
      else
        match splitDot r with
        | h :: t => (b :: h) :: t
        | [] => [[b]]

/-- The error taxonomy of the state-token codec (spec §4.2); in the
source each case is a distinct thrown `Error` inside the callback's
`try` block, all surfaced as the `invalid_state` redirect. -/
inductive AuthError where
  | MalformedState
  | InvalidSignature
  | StateExpired
deriving DecidableEq

/-- The state encoder (oauth-authorize lines 92-94):
`base64urlEncode(json + '.' + base64url(hmac_sha256(json)))`. -/
def encodeState (p : StatePayload) (secret : List Nat) : List Nat :=
  let canonicalJson := printPayload p
  base64urlEncode (canonicalJson ++ 46 :: hmacSha256 canonicalJson secret)

/-- The callback's state-validation logic (oauth-callback lines 90-124):
base64url-decode, split on `'.'`, check that the first two parts are
non-empty, constant-time-compare the provided signature against the
recomputed one, parse the JSON payload, and check expiry against the
current time (seconds). -/
def decodeState (stateParam secret : List Nat) (now : Nat) : Except AuthError StatePayload :=
  match base64urlDecode stateParam with
  | none => .error .MalformedState
  | some stateStr =>
    match splitDot stateStr with
    | jsonPart :: providedSignature :: _ =>
        if jsonPart = [] ∨ providedSignature = [] then .error .MalformedState
        else if constantTimeEqual providedSignature (hmacSha256 jsonPart secret) then
          match parsePayload jsonPart with
          | none => .error .MalformedState
          | some p => if p.exp < now then .error .StateExpired else .ok p
        else .error .InvalidSignature
    | _ => .error .MalformedState

/-! ## Data model: connections, mirrors, and the store.

The persistent store is modelled as in-memory lists; `maybeSingle`
queries become `List.find?` and the callback's conflict-keyed upsert
and the refresh helper's `update ... eq('id', ...)` become the explicit
list transformations below. -/

structure Connection where
  id : Nat
  user_id : List Nat
  role : List Nat
  athlete_id : Nat
  athlete_username : List Nat
  athlete_fullname : List Nat
  athlete_avatar : Option (List Nat)
  access_token : List Nat
  refresh_token : List Nat
  expires_at : Nat
deriving DecidableEq

structure MirrorRec where
  id : Nat
  user_id : List Nat
  source_activity_id : Nat
  status : List Nat
deriving DecidableEq

structure Db where
  connections : List Connection
  mirrors : List MirrorRec
deriving DecidableEq

def bOPTIONS : List Nat := [79, 80, 84, 73, 79, 78, 83]

def bPOST : List Nat := [80, 79, 83, 84]

def bHUMAN : List Nat := [72, 85, 77, 65, 78]

def bPET : List Nat := [80, 69, 84]

def bPENDING : List Nat := [80, 69, 78, 68, 73, 78, 71]

/-- JavaScript `x || ''` for a possibly-missing string. -/
def jsStr (o : Option (List Nat)) : List Nat :=
  match o with
  | some s => s
  | none => []

/-- JavaScript truthiness of a possibly-missing string: `null`,
`undefined` and `''` are falsy. -/
def jsTruthy (o : Option (List Nat)) : Option (List Nat) :=
  match o with
  | some s => if s = [] then none else some s
  | none => none

/-- JavaScript `a || b || null` on possibly-missing strings. -/
def jsOr2 (a b : Option (List Nat)) : Option (List Nat) :=
  match jsTruthy a with
  | some s => some s
  | none => jsTruthy b

def isWs (b : Nat) : Bool :=
  b == 32 || b == 9 || b == 10 || b == 13 || b == 12 || b == 11

/-- JavaScript `String.prototype.trim`. -/
def trimSpace (l : List Nat) : List Nat :=
  ((l.dropWhile isWs).reverse.dropWhile isWs).reverse

/-! ## The OAuth callback handler (oauth-callback `serve`). -/

structure Athlete where
  id : Nat
  username : Option (List Nat)
  firstname : Option (List Nat)
  lastname : Option (List Nat)
  profile : Option (List Nat)
  profile_medium : Option (List Nat)
deriving DecidableEq

structure TokenData where
  access_token : List Nat
  refresh_token : List Nat
  expires_at : Nat
  athlete : Athlete
deriving DecidableEq

/-- Outcome of the provider's token-exchange endpoint. -/
inductive TokenResp where
  | fail
  | ok (td : TokenData)
deriving DecidableEq

structure CallbackEnv where
  supabaseUrl : List Nat
  stateSecret : Option (List Nat)
  clientId : Option (List Nat)
  clientSecret : Option (List Nat)
deriving DecidableEq

structure CallbackReq where
  method : List Nat
  code : Option (List Nat)
  stateParam : Option (List Nat)
  errorParam : Option (List Nat)
deriving DecidableEq

/-- External effects of one callback invocation: the token-exchange
response and the fate of the upsert. -/
structure CallbackOracle where
  tokenResp : TokenResp
  upsertFails : Bool
  newConnId : Nat
deriving DecidableEq

structure CbResp where
  status : Nat
  location : Option (List Nat)
deriving DecidableEq

structure CbOut where
  resp : CbResp
  db : Db
deriving DecidableEq

def qOauthDenied : List Nat := [63, 101, 114, 114, 111, 114, 61, 111, 97, 117,
  116, 104, 95, 100, 101, 110, 105, 101, 100]

def qInvalidRequest : List Nat := [63, 101, 114, 114, 111, 114, 61, 105, 110,
  118, 97, 108, 105, 100, 95, 114, 101, 113, 117, 101, 115, 116]

def qServerError : List Nat := [63, 101, 114, 114, 111, 114, 61, 115, 101, 114,
  118, 101, 114, 95, 101, 114, 114, 111, 114]

def qInvalidState : List Nat := [63, 101, 114, 114, 111, 114, 61, 105, 110,
  118, 97, 108, 105, 100, 95, 115, 116, 97, 116, 101]

def qTokenExchangeFailed : List Nat := [63, 101, 114, 114, 111, 114, 61, 116,
  111, 107, 101, 110, 95, 101, 120, 99, 104, 97, 110, 103, 101, 95, 102, 97,
  105, 108, 101, 100]

def qRoleConflict : List Nat := [63, 101, 114, 114, 111, 114, 61, 97, 116, 104,
  108, 101, 116, 101, 95, 114, 111, 108, 101, 95, 99, 111, 110, 102, 108, 105,
  99, 116, 38, 97, 116, 104, 108, 101, 116, 101, 95, 105, 100, 61]

def qDatabaseError : List Nat := [63, 101, 114, 114, 111, 114, 61, 100, 97,
  116, 97, 98, 97, 115, 101, 95, 101, 114, 114, 111, 114]

def qSuccessRole : List Nat := [63, 111, 97, 117, 116, 104, 95, 115, 117, 99,
  99, 101, 115, 115, 61, 116, 114, 117, 101, 38, 114, 111, 108, 101, 61]

/-- The connection row built by the callback (oauth-callback lines
193-207); the `id` field is filled in by `upsertConn`. -/
def connRow (p : StatePayload) (td : TokenData) : Connection :=
  ⟨0, p.userId, p.role, td.athlete.id, jsStr td.athlete.username,
   trimSpace (jsStr td.athlete.firstname ++ 32 :: jsStr td.athlete.lastname),
   jsOr2 td.athlete.profile td.athlete.profile_medium,
   td.access_token, td.refresh_token, td.expires_at⟩

/-- `upsert(..., { onConflict: 'user_id,role' })`: replace the matching
row keeping its id, or insert with a fresh id. -/
def upsertConn (newId : Nat) (c : Connection) (l : List Connection) : List Connection :=
  match l.find? (fun x => x.user_id == c.user_id && x.role == c.role) with
  | some old =>
      l.map (fun x =>
        if x.user_id == c.user_id && x.role == c.role then
          ⟨old.id, c.user_id, c.role, c.athlete_id, c.athlete_username,
           c.athlete_fullname, c.athlete_avatar, c.access_token,
           c.refresh_token, c.expires_at⟩
        else x)
  | none =>
      l ++ [⟨newId, c.user_id, c.role, c.athlete_id, c.athlete_username,
             c.athlete_fullname, c.athlete_avatar, c.access_token,
             c.refresh_token, c.expires_at⟩]

/-- The tail of the callback after the role-conflict check: upsert and
final redirect (oauth-callback lines 192-227). -/
def cbUpsert (env : CallbackEnv) (o : CallbackOracle) (db : Db) (p : StatePayload)
    (td : TokenData) : CbOut :=
  if o.upsertFails then ⟨⟨302, some (env.supabaseUrl ++ qDatabaseError)⟩, db⟩
  else
    ⟨⟨302, some (env.supabaseUrl ++ qSuccessRole ++ p.role)⟩,
     ⟨upsertConn o.newConnId (connRow p td) db.connections, db.mirrors⟩⟩

/-- The callback handler `serve` (oauth-callback lines 47-238).  Every
branch other than the CORS preflight produces a 302 redirect; the
handler owns no other response shape. -/
def oauthCallback (env : CallbackEnv) (req : CallbackReq) (o : CallbackOracle)
    (db : Db) (now : Nat) : CbOut :=
  if req.method = bOPTIONS then ⟨⟨200, none⟩, db⟩
  else if jsStr req.errorParam ≠ [] then
    ⟨⟨302, some (env.supabaseUrl ++ qOauthDenied)⟩, db⟩
  else if jsStr req.code = [] ∨ jsStr req.stateParam = [] then
    ⟨⟨302, some (env.supabaseUrl ++ qInvalidRequest)⟩, db⟩
  else
    match env.stateSecret with
    | none => ⟨⟨302, some (env.supabaseUrl ++ qServerError)⟩, db⟩
    | some sec =>
      match decodeState (jsStr req.stateParam) sec now with
      | .error _ => ⟨⟨302, some (env.supabaseUrl ++ qInvalidState)⟩, db⟩
      | .ok p =>
        match env.clientId, env.clientSecret with
        | some _, some _ =>
          match o.tokenResp with
          | .fail => ⟨⟨302, some (env.supabaseUrl ++ qTokenExchangeFailed)⟩, db⟩
          | .ok td =>
            match db.connections.find? (fun c =>
                c.user_id == p.userId && c.athlete_id == td.athlete.id) with
            | some ec =>
                if ec.role ≠ p.role then
                  ⟨⟨302, some (env.supabaseUrl ++ qRoleConflict ++ natDec td.athlete.id)⟩, db⟩
                else cbUpsert env o db p td
            | none => cbUpsert env o db p td
        | _, _ => ⟨⟨302, some (env.supabaseUrl ++ qServerError)⟩, db⟩

/-- Replace the token-exchange response's credential pair, leaving the
athlete identity and everything else unchanged (used to state that the
redirect location does not depend on the token material). -/
def withTokens (o : CallbackOracle) (a r : List Nat) : CallbackOracle :=
  ⟨match o.tokenResp with
   | .fail => .fail
   | .ok td => .ok ⟨a, r, td.expires_at, td.athlete⟩,
   o.upsertFails, o.newConnId⟩

/-! ## The token-refresh helper (`refreshTokenIfNeeded`, mirror
function lines 251-295). -/

inductive TokenErr where
  | tokenRefreshFailed
deriving DecidableEq

/-- Outcome of the provider's refresh-token endpoint. -/
inductive RefreshResp where
  | fail
  | ok (access refresh : List Nat) (expires : Nat)
deriving DecidableEq

structure RefreshOut where
  result : Except TokenErr (List Nat)
  conn : Connection
  persisted : Bool
  calls : Nat
deriving DecidableEq

/-- `refreshTokenIfNeeded`: return the stored credential when
`expires_at > now + 300`; otherwise one refresh call, persisting the
new access/refresh/expiry triple on success and throwing
(`TokenRefreshFailed`) on a non-success response. -/
def refreshTokenIfNeeded (c : Connection) (now : Nat) (resp : RefreshResp) : RefreshOut :=
  if now + 300 < c.expires_at then ⟨.ok c.access_token, c, false, 0⟩
  else
    match resp with
    | .fail => ⟨.error .tokenRefreshFailed, c, false, 1⟩
    | .ok a r e =>
        ⟨.ok a,
         ⟨c.id, c.user_id, c.role, c.athlete_id, c.athlete_username,
          c.athlete_fullname, c.athlete_avatar, a, r, e⟩,
         true, 1⟩

/-- The `update ... .eq('id', connection.id)` persistence step. -/
def updConn (l : List Connection) (c : Connection) : List Connection :=
  l.map (fun x => if x.id == c.id then c else x)

/-! ## GPX generation (`generateGPX`, mirror function lines 297-339). -/

def isLeap (y : Nat) : Bool := (y % 4 == 0 && y % 100 != 0) || y % 400 == 0

def daysInYear (y : Nat) : Nat := if isLeap y then 366 else 365

def daysInMonth (leap : Bool) (m : Nat) : Nat :=
  if m = 2 then (if leap then 29 else 28)
  else if m = 4 ∨ m = 6 ∨ m = 9 ∨ m = 11 then 30
  else 31

/-- Find the civil year of a day count since 1970-01-01. -/
def yearFrom : Nat → Nat → Nat → Nat × Nat
  | 0, y, d => (y, d)
  | fuel + 1, y, d =>
      if daysInYear y ≤ d then yearFrom fuel (y + 1) (d - daysInYear y) else (y, d)

/-- Find the month of a day-of-year (zero-based day, one-based month). -/
def monthFrom : Nat → Bool → Nat → Nat → Nat × Nat
  | 0, _, m, d => (m, d)
  | fuel + 1, leap, m, d =>
      if daysInMonth leap m ≤ d then monthFrom fuel leap (m + 1) (d - daysInMonth leap m)
      else (m, d)

/-- Zero-padded decimal of the given width. -/
def isoDigits (width n : Nat) : List Nat :=
  List.replicate (width - (natDec n).length) 48 ++ natDec n

/-- `Date.prototype.toISOString` for a non-negative epoch-millisecond
timestamp: `YYYY-MM-DDTHH:MM:SS.mmmZ` in UTC. -/
def toISO (ms : Nat) : List Nat :=
  let days := ms / 86400000
  let msOfDay := ms % 86400000
  let yd := yearFrom (days / 365 + 1) 1970 days
  let md := monthFrom 12 (isLeap yd.1) 1 yd.2
  isoDigits 4 yd.1 ++ 45 :: isoDigits 2 md.1 ++ 45 :: isoDigits 2 (md.2 + 1) ++
  84 :: isoDigits 2 (msOfDay / 3600000) ++ 58 :: isoDigits 2 (msOfDay % 3600000 / 60000) ++
  58 :: isoDigits 2 (msOfDay % 60000 / 1000) ++ 46 :: isoDigits 3 (msOfDay % 1000) ++ [90]

/-- `toISOString` known-answer tests (1970 epoch, a 2023 instant, and a
leap-year date). -/
theorem toISO_kat :
    toISO 0 = [49, 57, 55, 48, 45, 48, 49, 45, 48, 49, 84, 48, 48, 58, 48, 48,
      58, 48, 48, 46, 48, 48, 48, 90] ∧
    toISO 951782400000 = [50, 48, 48, 48, 45, 48, 50, 45, 50, 57, 84, 48, 48,
      58, 48, 48, 58, 48, 48, 46, 48, 48, 48, 90] := by
  constructor <;> decide

/-- The activity metadata used by the mirror pipeline.  `startMs`
models `new Date(activity.start_date).getTime()`; the numeric GPS
samples are modelled by their JavaScript decimal renderings, which is
all `generateGPX` ever uses of them. -/
structure StravaActivity where
  id : Nat
  athleteId : Nat
  name : List Nat
  startMs : Nat
deriving DecidableEq

structure StravaStream where
  latlng : Option (List (List Nat × List Nat))
  time : Option (List Nat)
  altitude : Option (List (List Nat))
deriving DecidableEq

def gpxA : List Nat := [60, 63, 120, 109, 108, 32, 118, 101, 114, 115, 105,
  111, 110, 61, 34, 49, 46, 48, 34, 32, 101, 110, 99, 111, 100, 105, 110,
  103, 61, 34, 85, 84, 70, 45, 56, 34, 63, 62, 10, 60, 103, 112, 120, 32,
  118, 101, 114, 115, 105, 111, 110, 61, 34, 49, 46, 49, 34, 32, 99, 114,
  101, 97, 116, 111, 114, 61, 34]

def gpxB : List Nat := [34, 62, 10, 32, 32, 60, 109, 101, 116, 97, 100, 97,
  116, 97, 62, 10, 32, 32, 32, 32, 60, 110, 97, 109, 101, 62]

def gpxC : List Nat := [60, 47, 110, 97, 109, 101, 62, 10, 32, 32, 32, 32,
  60, 116, 105, 109, 101, 62]

def gpxD : List Nat := [60, 47, 116, 105, 109, 101, 62, 10, 32, 32, 60, 47,
  109, 101, 116, 97, 100, 97, 116, 97, 62, 10, 32, 32, 60, 116, 114, 107,
  62, 10, 32, 32, 32, 32, 60, 110, 97, 109, 101, 62]

def gpxE : List Nat := [60, 47, 110, 97, 109, 101, 62, 10, 32, 32, 32, 32,
  60, 116, 114, 107, 115, 101, 103, 62, 10]

def gpxF : List Nat := [32, 32, 32, 32, 60, 47, 116, 114, 107, 115, 101,
  103, 62, 10, 32, 32, 60, 47, 116, 114, 107, 62, 10, 60, 47, 103, 112,
  120, 62]

def tp1 : List Nat := [32, 32, 32, 32, 32, 32, 60, 116, 114, 107, 112, 116,
  32, 108, 97, 116, 61, 34]

def tp2 : List Nat := [34, 32, 108, 111, 110, 61, 34]

def tp3 : List Nat := [34, 62, 10, 32, 32, 32, 32, 32, 32, 32, 32, 60, 116,
  105, 109, 101, 62]

def tp4 : List Nat := [60, 47, 116, 105, 109, 101, 62]

def tpEle1 : List Nat := [10, 32, 32, 32, 32, 32, 32, 32, 32, 60, 101, 108,
  101, 62]

def tpEle2 : List Nat := [60, 47, 101, 108, 101, 62]

def tpEnd : List Nat := [10, 32, 32, 32, 32, 32, 32, 60, 47, 116, 114, 107,
  112, 116, 62, 10]

/-- One `<trkpt>` element of the loop body (mirror function lines
306-322). -/
def trkptFor (startMs : Nat) (latlng : List (List Nat × List Nat)) (time : List Nat)
    (altitude : Option (List (List Nat))) (i : Nat) : List Nat :=
  let p := latlng.getD i ([], [])
  let timestamp := toISO (startMs + time.getD i 0 * 1000)
  let ele : Option (List Nat) :=
    match altitude with
    | some alt => some (alt.getD i [])
    | none => none
  tp1 ++ p.1 ++ tp2 ++ p.2 ++ tp3 ++ timestamp ++ tp4 ++
  (match ele with
   | some e => tpEle1 ++ e ++ tpEle2
   | none => []) ++ tpEnd

/-- `generateGPX` (mirror function lines 297-339): the XML template
with the accumulated track points interpolated. -/
def generateGPX (appName titlePre : List Nat) (activity : StravaActivity)
    (latlng : List (List Nat × List Nat)) (time : List Nat)
    (altitude : Option (List (List Nat))) : List Nat :=
  let trackPoints := (List.range latlng.length).foldl
    (fun acc i => acc ++ trkptFor activity.startMs latlng time altitude i) []
  gpxA ++ appName ++ gpxB ++ titlePre ++ activity.name ++ gpxC ++
  toISO activity.startMs ++ gpxD ++ titlePre ++ activity.name ++ gpxE ++
  trackPoints ++ gpxF

/-! ## The mirror pipeline (`serve` of the mirror function). -/

inductive ActivityResp where
  | notFound
  | fail
  | ok (a : StravaActivity)
deriving DecidableEq

inductive StreamsResp where
  | fail
  | ok (s : StravaStream)
deriving DecidableEq

inductive UploadResp where
  | fail
  | ok (id : Nat)
deriving DecidableEq

/-- External effects of one mirror invocation. -/
structure MirrorOracle where
  authUser : Option (List Nat)
  connectionsFail : Bool
  humanRefresh : RefreshResp
  petRefresh : RefreshResp
  activityResp : ActivityResp
  streamsResp : StreamsResp
  uploadResp : UploadResp
  insertFails : Bool
  insertId : Nat
deriving DecidableEq

structure MirrorReq where
  method : List Nat
  hasAuthHeader : Bool
  activityUrl : List Nat
deriving DecidableEq

inductive MirrorRes where
  | preflight
  | methodNotAllowed
  | missingAuthHeader
  | unauthorized
  | invalidActivityUrl
  | alreadyMirrored (m : MirrorRec)
  | connectionsFailed
  | missingConnection
  | internalError
  | activityNotFound
  | fetchFailed
  | ownershipMismatch
  | streamsFailed
  | missingGpsData
  | uploadFailed
  | success (uploadId : Nat) (mirror : Option MirrorRec) (srcId : Nat) (srcName : List Nat)
deriving DecidableEq

/-- Result, resulting store, and the list of GPX payloads uploaded to
the pet account during the invocation. -/
structure MirrorOut where
  res : MirrorRes
  db : Db
  uploads : List (List Nat)
deriving DecidableEq

def bActivitiesPath : List Nat := [47, 97, 99, 116, 105, 118, 105, 116, 105,
  101, 115, 47]

/-- `activityUrl.match(/\/activities\/(\d+)/)` followed by `parseInt`:
scan left to right for `/activities/` followed by at least one digit
and return the value of the maximal digit run. -/
def extractActivityId : List Nat → Option Nat
  | [] => none
  | b :: r =>
      match matchPre bActivitiesPath (b :: r) with
      | some rest =>
          match rest with
          | d :: _ =>
              if 48 ≤ d ∧ d ≤ 57 then some (parseDecAcc 0 rest).1
              else extractActivityId r
          | [] => extractActivityId r
      | none => extractActivityId r

/-- The mirror handler `serve` (mirror function lines 31-249), with the
store and the upload calls made explicit.  A throw from
`refreshTokenIfNeeded` is caught by the outer handler and surfaces as
the 500 internal-error response. -/
def mirrorActivity (req : MirrorReq) (o : MirrorOracle) (db : Db) (now : Nat)
    (appName titlePre : List Nat) : MirrorOut :=
  if req.method = bOPTIONS then ⟨.preflight, db, []⟩
  else if req.method ≠ bPOST then ⟨.methodNotAllowed, db, []⟩
  else if ¬req.hasAuthHeader then ⟨.missingAuthHeader, db, []⟩
  else
    match o.authUser with
    | none => ⟨.unauthorized, db, []⟩
    | some uid =>
      match extractActivityId req.activityUrl with
      | none => ⟨.invalidActivityUrl, db, []⟩
      | some activityId =>
        match db.mirrors.find? (fun m =>
            m.user_id == uid && m.source_activity_id == activityId) with
        | some existing => ⟨.alreadyMirrored existing, db, []⟩
        | none =>
          if o.connectionsFail then ⟨.connectionsFailed, db, []⟩
          else
            match (db.connections.filter (fun c => c.user_id == uid)).find?
                    (fun c => c.role == bHUMAN),
                  (db.connections.filter (fun c => c.user_id == uid)).find?
                    (fun c => c.role == bPET) with
            | some humanConnection, some petConnection =>
              let hOut := refreshTokenIfNeeded humanConnection now o.humanRefresh
              let dbc1 := if hOut.persisted then updConn db.connections hOut.conn
                          else db.connections
              match hOut.result with
              | .error _ => ⟨.internalError, ⟨dbc1, db.mirrors⟩, []⟩
              | .ok _ =>
                let pOut := refreshTokenIfNeeded petConnection now o.petRefresh
                let dbc2 := if pOut.persisted then updConn dbc1 pOut.conn else dbc1
                match pOut.result with
                | .error _ => ⟨.internalError, ⟨dbc2, db.mirrors⟩, []⟩
                | .ok _ =>
                  match o.activityResp with
                  | .notFound => ⟨.activityNotFound, ⟨dbc2, db.mirrors⟩, []⟩
                  | .fail => ⟨.fetchFailed, ⟨dbc2, db.mirrors⟩, []⟩
                  | .ok activity =>
                    if activity.athleteId ≠ humanConnection.athlete_id then
                      ⟨.ownershipMismatch, ⟨dbc2, db.mirrors⟩, []⟩
                    else
                      match o.streamsResp with
                      | .fail => ⟨.streamsFailed, ⟨dbc2, db.mirrors⟩, []⟩
                      | .ok streams =>
                        match streams.latlng, streams.time with
                        | some latlng, some time =>
                          let gpx := generateGPX appName titlePre activity latlng
                                       time streams.altitude
                          match o.uploadResp with
                          | .fail => ⟨.uploadFailed, ⟨dbc2, db.mirrors⟩, [gpx]⟩
                          | .ok uploadId =>
                            if o.insertFails then
                              ⟨.success uploadId none activity.id activity.name,
                               ⟨dbc2, db.mirrors⟩, [gpx]⟩
                            else
                              ⟨.success uploadId
                                 (some ⟨o.insertId, uid, activityId, bPENDING⟩)
                                 activity.id activity.name,
                               ⟨dbc2, db.mirrors ++ [⟨o.insertId, uid, activityId, bPENDING⟩]⟩,
                               [gpx]⟩
                        | _, _ => ⟨.missingGpsData, ⟨dbc2, db.mirrors⟩, []⟩
            | _, _ => ⟨.missingConnection, db, []⟩

/-! ## Properties of `constantTimeEqual` (claim C8). -/

theorem lor_eq_zero_iff (x y : Nat) : x ||| y = 0 ↔ x = 0 ∧ y = 0 := by
  constructor
  · intro h
    constructor <;> apply Nat.zero_of_testBit_eq_false <;> intro i
    · have hb := congrArg (fun z => Nat.testBit z i) h
      simp only [Nat.testBit_lor, Nat.zero_testBit, Bool.or_eq_false_iff] at hb
      exact hb.1
    · have hb := congrArg (fun z => Nat.testBit z i) h
      simp only [Nat.testBit_lor, Nat.zero_testBit, Bool.or_eq_false_iff] at hb
      exact hb.2
  · rintro ⟨rfl, rfl⟩
    rfl

theorem foldl_lor_eq_zero (l : List (Nat × Nat)) (a : Nat) :
    l.foldl (fun r p => r ||| (p.1 ^^^ p.2)) a = 0 ↔
      a = 0 ∧ ∀ p ∈ l, p.1 ^^^ p.2 = 0 := by
  induction l generalizing a with
  | nil => simp
  | cons h t ih =>
      rw [List.foldl_cons, ih, lor_eq_zero_iff]
      constructor
      · rintro ⟨⟨h1, h2⟩, h3⟩
        exact ⟨h1, by simpa using And.intro h2 h3⟩
      · rintro ⟨h1, h2⟩
        simp only [List.mem_cons, forall_eq_or_imp] at h2
        exact ⟨⟨h1, h2.1⟩, h2.2⟩

theorem zip_forall_eq (a : List Nat) :
    ∀ b : List Nat, a.length = b.length →
      ((∀ p ∈ a.zip b, p.1 = p.2) ↔ a = b) := by
  induction a with
  | nil =>
      intro b hb
      cases b with
      | nil => simp
      | cons x xs => simp at hb
  | cons x xs ih =>
      intro b hb
      cases b with
      | nil => simp at hb
      | cons y ys =>
          simp only [List.length_cons, Nat.add_right_cancel_iff] at hb
          simp only [List.zip_cons_cons, List.mem_cons, forall_eq_or_imp]
          rw [List.cons_eq_cons, ← ih ys hb]

theorem constantTimeEqual_eq_true_iff (a b : List Nat) :
    constantTimeEqual a b = true ↔ a = b := by
  unfold constantTimeEqual
  by_cases h : a.length = b.length
  · rw [if_neg (by simp [h])]
    rw [beq_iff_eq, foldl_lor_eq_zero]
    constructor
    · rintro ⟨-, h2⟩
      exact (zip_forall_eq a b h).mp (fun p hp => Nat.xor_eq_zero.mp (h2 p hp))
    · intro hab
      refine ⟨rfl, fun p hp => Nat.xor_eq_zero.mpr ?_⟩
      exact (zip_forall_eq a b h).mpr hab p hp
  · rw [if_pos (by simp [h])]
    constructor
    · intro hc
      exact absurd hc Bool.false_ne_true
    · intro hab
      exact (h (congrArg List.length hab)).elim

/-- C8: `constantTimeEqual` returns false for every length mismatch and
for every pair of equal-length byte strings differing in at least one
byte, and returns true exactly when its arguments are equal. -/
theorem claim_C8_constantTimeEqual (a b : List Nat) :
    (a.length ≠ b.length → constantTimeEqual a b = false) ∧
    (a.length = b.length → a ≠ b → constantTimeEqual a b = false) ∧
    (constantTimeEqual a b = true ↔ a = b) := by
  refine ⟨?_, ?_, constantTimeEqual_eq_true_iff a b⟩
  · intro h
    cases hc : constantTimeEqual a b with
    | false => rfl
    | true => exact absurd (congrArg List.length ((constantTimeEqual_eq_true_iff a b).mp hc)) h
  · intro _ hne
    cases hc : constantTimeEqual a b with
    | false => rfl
    | true => exact absurd ((constantTimeEqual_eq_true_iff a b).mp hc) hne

/-- Witness for C8 at concrete inputs: a length mismatch, a single-byte
difference, and an equal pair. -/
theorem claim_C8_constantTimeEqual_witness :
    constantTimeEqual [1] [1, 2] = false ∧
    constantTimeEqual [5, 6] [5, 7] = false ∧
    constantTimeEqual [5, 6] [5, 6] = true :=
  ⟨(claim_C8_constantTimeEqual [1] [1, 2]).1 (by decide),
   (claim_C8_constantTimeEqual [5, 6] [5, 7]).2.1 (by decide) (by decide),
   ((claim_C8_constantTimeEqual [5, 6] [5, 6]).2.2).mpr rfl⟩

/-! ## Properties of `refreshTokenIfNeeded` (claim C9). -/

/-- C9: a connection whose stored expiry exceeds `now + 300` is
returned unchanged with no network call and no persisted change; one at
or below the threshold triggers exactly one refresh call, which either
persists the new access/refresh/expiry triple and returns the new
access credential, or raises `TokenRefreshFailed` on a non-success
response. -/
theorem claim_C9_refreshTokenIfNeeded (c : Connection) (now : Nat) (resp : RefreshResp) :
    (now + 300 < c.expires_at →
      refreshTokenIfNeeded c now resp = ⟨.ok c.access_token, c, false, 0⟩) ∧
    (c.expires_at ≤ now + 300 →
      (refreshTokenIfNeeded c now resp).calls = 1 ∧
      (resp = .fail →
        refreshTokenIfNeeded c now resp = ⟨.error .tokenRefreshFailed, c, false, 1⟩) ∧
      (∀ a r e, resp = .ok a r e →
        refreshTokenIfNeeded c now resp =
          ⟨.ok a, ⟨c.id, c.user_id, c.role, c.athlete_id, c.athlete_username,
                   c.athlete_fullname, c.athlete_avatar, a, r, e⟩, true, 1⟩)) := by
  constructor
  · intro h
    unfold refreshTokenIfNeeded
    rw [if_pos h]
  · intro h
    have hn : ¬(now + 300 < c.expires_at) := by omega
    unfold refreshTokenIfNeeded
    rw [if_neg hn]
    refine ⟨?_, ?_, ?_⟩
    · cases resp <;> rfl
    · rintro rfl
      rfl
    · rintro a r e rfl
      rfl

def connW : Connection := ⟨1, [117], bHUMAN, 5, [], [], none, [3], [4], 400⟩

/-- Witness for C9: a fresh credential is passed through untouched, and
a stale one is replaced by the refreshed triple. -/
theorem claim_C9_refreshTokenIfNeeded_witness :
    refreshTokenIfNeeded connW 0 .fail = ⟨.ok connW.access_token, connW, false, 0⟩ ∧
    refreshTokenIfNeeded connW 1000 (.ok [9] [8] 77) =
      ⟨.ok [9], ⟨connW.id, connW.user_id, connW.role, connW.athlete_id,
                 connW.athlete_username, connW.athlete_fullname,
                 connW.athlete_avatar, [9], [8], 77⟩, true, 1⟩ :=
  ⟨(claim_C9_refreshTokenIfNeeded connW 0 .fail).1 (by decide),
   (((claim_C9_refreshTokenIfNeeded connW 1000 (.ok [9] [8] 77)).2 (by decide)).2.2) [9] [8] 77 rfl⟩

/-! ## The base64url round trip. -/

/-- Induction principle matching the three-byte grouping of `b64e`. -/
theorem threeInd (P : List Nat → Prop) (h0 : P []) (h1 : ∀ a, P [a])
    (h2 : ∀ a b, P [a, b]) (h3 : ∀ a b c r, P r → P (a :: b :: c :: r)) :
    ∀ l, P l := by
  have key : ∀ n l, List.length l ≤ n → P l := by
    intro n
    induction n with
    | zero =>
        intro l hl
        match l with
        | [] => exact h0
        | a :: t => simp at hl
    | succ n ih =>
        intro l hl
        match l with
        | [] => exact h0
        | [a] => exact h1 a
        | [a, b] => exact h2 a b
        | a :: b :: c :: r =>
            refine h3 a b c r (ih r ?_)
            simp only [List.length_cons] at hl
            omega
  intro l
  exact key l.length l le_rfl

/-- A character producible by `b64e`: padding or an alphabet digit. -/
def goodChar (c : Nat) : Prop := c = 61 ∨ ∃ v, v < 64 ∧ c = b64c v

theorem b64v_b64c : ∀ v, v < 64 → b64v (b64c v) = some v := by decide

theorem b64c_ne_61 : ∀ v, v < 64 → b64c v ≠ 61 := by decide

theorem b64c_ne_46 : ∀ v, v < 64 → b64c v ≠ 46 := by decide

theorem b64c_lt_256 : ∀ v, v < 64 → b64c v < 256 := by decide

theorem urlInv_urlTr_b64c : ∀ v, v < 64 → urlInv (urlTr (b64c v)) = b64c v := by decide

theorem urlTr_ne_61 : ∀ v, v < 64 → urlTr (b64c v) ≠ 61 := by decide

theorem urlTr_b64c_ne_46 : ∀ v, v < 64 → urlTr (b64c v) ≠ 46 := by decide

theorem urlTr_b64c_lt_256 : ∀ v, v < 64 → urlTr (b64c v) < 256 := by decide

theorem urlTr_eq_61_iff (c : Nat) : urlTr c = 61 ↔ c = 61 := by
  unfold urlTr
  by_cases h1 : c = 43
  · subst h1
    simp
  · by_cases h2 : c = 47
    · subst h2
      simp
    · simp [h1, h2]

theorem b64e_good : ∀ l, (∀ b ∈ l, b < 256) → ∀ c ∈ b64e l, goodChar c := by
  refine threeInd _ ?_ ?_ ?_ ?_
  · intro _ c hc
    simp [b64e] at hc
  · intro a h c hc
    have ha : a < 256 := h a (by simp)
    simp only [b64e, List.mem_cons, List.not_mem_nil, or_false] at hc
    rcases hc with rfl | rfl | rfl | rfl
    · exact Or.inr ⟨a / 4, by omega, rfl⟩
    · exact Or.inr ⟨a % 4 * 16, by omega, rfl⟩
    · exact Or.inl rfl
    · exact Or.inl rfl
  · intro a b h c hc
    have ha : a < 256 := h a (by simp)
    have hb : b < 256 := h b (by simp)
    simp only [b64e, List.mem_cons, List.not_mem_nil, or_false] at hc
    rcases hc with rfl | rfl | rfl | rfl
    · exact Or.inr ⟨a / 4, by omega, rfl⟩
    · exact Or.inr ⟨a % 4 * 16 + b / 16, by omega, rfl⟩
    · exact Or.inr ⟨b % 16 * 4, by omega, rfl⟩
    · exact Or.inl rfl
  · intro a b c r ih h x hx
    have ha : a < 256 := h a (by simp)
    have hb : b < 256 := h b (by simp)
    have hc : c < 256 := h c (by simp)
    simp only [b64e, List.mem_cons] at hx
    rcases hx with rfl | rfl | rfl | rfl | hx
    · exact Or.inr ⟨a / 4, by omega, rfl⟩
    · exact Or.inr ⟨a % 4 * 16 + b / 16, by omega, rfl⟩
    · exact Or.inr ⟨b % 16 * 4 + c / 64, by omega, rfl⟩
    · exact Or.inr ⟨c % 64, by omega, rfl⟩
    · exact ih (fun y hy => h y (by simp [hy])) x hx

theorem goodChar_urlInv_urlTr {c : Nat} (h : goodChar c) : urlInv (urlTr c) = c := by
  rcases h with rfl | ⟨v, hv, rfl⟩
  · rfl
  · exact urlInv_urlTr_b64c v hv

theorem filter61_map_urlTr (l : List Nat) :
    ((l.map urlTr).filter (fun c => c ≠ 61)) =
      ((l.filter (fun c => c ≠ 61)).map urlTr) := by
  simp only [ne_eq, decide_not]
  induction l with
  | nil => rfl
  | cons c t ih =>
      by_cases hc : c = 61
      · subst hc
        simp [List.filter_cons, urlTr, ih]
      · have h2 : urlTr c ≠ 61 := fun h => hc ((urlTr_eq_61_iff c).mp h)
        simp [List.filter_cons, hc, h2, ih]

theorem map_urlInv_urlTr (l : List Nat) (h : ∀ c ∈ l, goodChar c) :
    ((l.map urlTr).map urlInv) = l := by
  induction l with
  | nil => rfl
  | cons c t ih =>
      simp only [List.map_cons, List.cons_eq_cons]
      exact ⟨goodChar_urlInv_urlTr (h c (by simp)),
             ih (fun y hy => h y (by simp [hy]))⟩

theorem pad_filter_b64e : ∀ l, (∀ b ∈ l, b < 256) →
    padEq ((b64e l).filter (fun c => c ≠ 61)) = b64e l := by
  refine threeInd _ ?_ ?_ ?_ ?_
  · intro _
    rfl
  · intro a h
    have ha : a < 256 := h a (by simp)
    have h1 : b64c (a / 4) ≠ 61 := b64c_ne_61 _ (by omega)
    have h2 : b64c (a % 4 * 16) ≠ 61 := b64c_ne_61 _ (by omega)
    simp [b64e, List.filter_cons, h1, h2, padEq, List.replicate]
  · intro a b h
    have ha : a < 256 := h a (by simp)
    have hb : b < 256 := h b (by simp)
    have h1 : b64c (a / 4) ≠ 61 := b64c_ne_61 _ (by omega)
    have h2 : b64c (a % 4 * 16 + b / 16) ≠ 61 := b64c_ne_61 _ (by omega)
    have h3 : b64c (b % 16 * 4) ≠ 61 := b64c_ne_61 _ (by omega)
    simp [b64e, List.filter_cons, h1, h2, h3, padEq, List.replicate]
  · intro a b c r ih h
    have ha : a < 256 := h a (by simp)
    have hb : b < 256 := h b (by simp)
    have hc : c < 256 := h c (by simp)
    have h1 : b64c (a / 4) ≠ 61 := b64c_ne_61 _ (by omega)
    have h2 : b64c (a % 4 * 16 + b / 16) ≠ 61 := b64c_ne_61 _ (by omega)
    have h3 : b64c (b % 16 * 4 + c / 64) ≠ 61 := b64c_ne_61 _ (by omega)
    have h4 : b64c (c % 64) ≠ 61 := b64c_ne_61 _ (by omega)
    have ihr := ih (fun y hy => h y (by simp [hy]))
    have hfil : (b64e (a :: b :: c :: r)).filter (fun x => x ≠ 61) =
        b64c (a / 4) :: b64c (a % 4 * 16 + b / 16) :: b64c (b % 16 * 4 + c / 64) ::
        b64c (c % 64) :: (b64e r).filter (fun x => x ≠ 61) := by
      simp [b64e, List.filter_cons, h1, h2, h3, h4]
    rw [hfil]
    unfold padEq at ihr ⊢
    simp only [List.length_cons]
    have hn : (4 - (((b64e r).filter (fun x => x ≠ 61)).length + 1 + 1 + 1 + 1) % 4) % 4 =
        (4 - ((b64e r).filter (fun x => x ≠ 61)).length % 4) % 4 := by omega
    rw [hn]
    simp only [List.cons_append]
    rw [ihr]
    simp [b64e]

theorem atob_b64e : ∀ l, (∀ b ∈ l, b < 256) → atobF (b64e l) = some l := by
  refine threeInd _ ?_ ?_ ?_ ?_
  · intro _
    rfl
  · intro a h
    have ha : a < 256 := h a (by simp)
    show atobF [b64c (a / 4), b64c (a % 4 * 16), 61, 61] = some [a]
    simp only [atobF, b64v_b64c _ (show a / 4 < 64 by omega),
      b64v_b64c _ (show a % 4 * 16 < 64 by omega)]
    simp
    omega
  · intro a b h
    have ha : a < 256 := h a (by simp)
    have hb : b < 256 := h b (by simp)
    show atobF [b64c (a / 4), b64c (a % 4 * 16 + b / 16), b64c (b % 16 * 4), 61] =
      some [a, b]
    simp only [atobF, b64v_b64c _ (show a / 4 < 64 by omega),
      b64v_b64c _ (show a % 4 * 16 + b / 16 < 64 by omega),
      b64v_b64c _ (show b % 16 * 4 < 64 by omega)]
    have h3 : b64c (b % 16 * 4) ≠ 61 := b64c_ne_61 _ (by omega)
    simp [h3]
    omega
  · intro a b c r ih h
    have ha : a < 256 := h a (by simp)
    have hb : b < 256 := h b (by simp)
    have hc : c < 256 := h c (by simp)
    have ihr := ih (fun y hy => h y (by simp [hy]))
    show atobF (b64c (a / 4) :: b64c (a % 4 * 16 + b / 16) ::
      b64c (b % 16 * 4 + c / 64) :: b64c (c % 64) :: b64e r) = some (a :: b :: c :: r)
    simp only [atobF, b64v_b64c _ (show a / 4 < 64 by omega),
      b64v_b64c _ (show a % 4 * 16 + b / 16 < 64 by omega),
      b64v_b64c _ (show b % 16 * 4 + c / 64 < 64 by omega),
      b64v_b64c _ (show c % 64 < 64 by omega)]
    have h4 : b64c (c % 64) ≠ 61 := b64c_ne_61 _ (by omega)
    simp [h4, ihr]
    omega

/-- The base64url round trip underlying the state codec: decoding an
encoding recovers the original byte string. -/
theorem b64url_roundtrip (l : List Nat) (h : ∀ b ∈ l, b < 256) :
    base64urlDecode (base64urlEncode l) = some l := by
  unfold base64urlDecode base64urlEncode
  rw [filter61_map_urlTr,
      map_urlInv_urlTr _ (fun c hc => b64e_good l h c (List.mem_filter.mp hc).1),
      pad_filter_b64e l h]
  exact atob_b64e l h

/-! ## Splitting on the dot delimiter. -/

theorem splitDot_no46 : ∀ l, (∀ b ∈ l, b ≠ 46) → splitDot l = [l] := by
  intro l
  induction l with
  | nil => intro _; rfl
  | cons b r ih =>
      intro h
      have hb : b ≠ 46 := h b (by simp)
      have hr := ih (fun y hy => h y (by simp [hy]))
      simp [splitDot, hb, hr]

theorem splitDot_append (j s : List Nat) (hj : ∀ b ∈ j, b ≠ 46) :
    splitDot (j ++ 46 :: s) = j :: splitDot s := by
  induction j with
  | nil => simp [splitDot]
  | cons b t ih =>
      have hb : b ≠ 46 := hj b (by simp)
      have ht := ih (fun y hy => hj y (by simp [hy]))
      simp [splitDot, hb, ht]

/-! ## The JSON string-escape round trip. -/

theorem hexVal_hexDig : ∀ x, x < 16 → hexVal (hexDig x) = some x := by decide

theorem escStep_len (r : List Nat) (v : Nat) (r2 : List Nat)
    (h : escStep r = some (v, r2)) : r2.length < r.length := by
  match r with
  | [] => simp [escStep] at h
  | e :: r3 =>
      simp only [escStep] at h
      rcases hes : escShort e with - | w <;> rw [hes] at h
      · repeat' split at h
        all_goals simp_all
        all_goals omega
      · simp only [Option.some.injEq, Prod.mk.injEq] at h
        rcases h with ⟨-, rfl⟩
        simp

theorem scanStrF_nil (f : Nat) : scanStrF f [] = none := by
  cases f <;> rfl

theorem scanStrF_mono : ∀ f1 : Nat, ∀ l : List Nat, ∀ f2 : Nat,
    l.length ≤ f1 → l.length ≤ f2 → scanStrF f1 l = scanStrF f2 l := by
  intro f1
  induction f1 with
  | zero =>
      intro l f2 h1 _
      have hl : l = [] := by
        cases l with
        | nil => rfl
        | cons b r => simp at h1
      subst hl
      rw [scanStrF_nil, scanStrF_nil]
  | succ g ih =>
      intro l f2 h1 h2
      cases l with
      | nil => rw [scanStrF_nil, scanStrF_nil]
      | cons b r =>
          cases f2 with
          | zero => simp at h2
          | succ g2 =>
              show scanStrF (g + 1) (b :: r) = scanStrF (g2 + 1) (b :: r)
              simp only [scanStrF]
              by_cases h34 : b = 34
              · rw [if_pos h34, if_pos h34]
              · rw [if_neg h34, if_neg h34]
                by_cases h92 : b = 92
                · rw [if_pos h92, if_pos h92]
                  rcases hes : escStep r with - | ⟨v, r2⟩
                  · rfl
                  · have hlen := escStep_len r v r2 hes
                    simp only [List.length_cons] at h1 h2
                    simp only [Option.some_bind]
                    rw [ih r2 g2 (by omega) (by omega)]
                · rw [if_neg h92, if_neg h92]
                  simp only [List.length_cons] at h1 h2
                  rw [ih r g2 (by omega) (by omega)]

theorem scanStr_quote (r : List Nat) : scanStr (34 :: r) = some ([], r) := by
  show scanStrF (r.length + 1) (34 :: r) = some ([], r)
  simp [scanStrF]

theorem scanStr_default (b : Nat) (z : List Nat) (h34 : b ≠ 34) (h92 : b ≠ 92) :
    scanStr (b :: z) = (scanStr z).map (fun t => (b :: t.1, t.2)) := by
  show scanStrF (z.length + 1) (b :: z) = _
  simp [scanStrF, h34, h92]
  rfl

theorem escStep_short (e v : Nat) (r2 : List Nat) (h : escShort e = some v) :
    escStep (e :: r2) = some (v, r2) := by
  simp [escStep, h]

theorem scanStr_escape (r : List Nat) (v : Nat) (r2 : List Nat)
    (h : escStep r = some (v, r2)) :
    scanStr (92 :: r) = (scanStr r2).map (fun t => (v :: t.1, t.2)) := by
  show scanStrF (r.length + 1) (92 :: r) = _
  have hred : scanStrF (r.length + 1) (92 :: r) =
      (escStep r).bind (fun vr => (scanStrF r.length vr.2).map (fun t => (vr.1 :: t.1, t.2))) := by
    simp [scanStrF]
  rw [hred, h, Option.some_bind,
      scanStrF_mono r.length r2 r2.length (le_of_lt (escStep_len r v r2 h)) le_rfl]
  rfl

theorem scanStr_esc (xs : List Nat) : ∀ rest, scanStr (escStr xs ++ 34 :: rest) = some (xs, rest) := by
  induction xs with
  | nil =>
      intro rest
      simp only [escStr, List.nil_append]
      exact scanStr_quote rest
  | cons b t ih =>
      intro rest
      have hsplit : escStr (b :: t) ++ 34 :: rest = escByte b ++ (escStr t ++ 34 :: rest) := by
        simp [escStr, List.append_assoc]
      rw [hsplit]
      unfold escByte
      by_cases h34 : b = 34
      · subst h34
        rw [if_pos rfl]
        show scanStr (92 :: 34 :: (escStr t ++ 34 :: rest)) = _
        rw [scanStr_escape _ _ _ (escStep_short 34 34 _ rfl), ih rest]
        rfl
      · rw [if_neg h34]
        by_cases h92 : b = 92
        · subst h92
          rw [if_pos rfl]
          show scanStr (92 :: 92 :: (escStr t ++ 34 :: rest)) = _
          rw [scanStr_escape _ _ _ (escStep_short 92 92 _ rfl), ih rest]
          rfl
        · rw [if_neg h92]
          by_cases h8 : b = 8
          · subst h8
            rw [if_pos rfl]
            show scanStr (92 :: 98 :: (escStr t ++ 34 :: rest)) = _
            rw [scanStr_escape _ _ _ (escStep_short 98 8 _ rfl), ih rest]
            rfl
          · rw [if_neg h8]
            by_cases h9 : b = 9
            · subst h9
              rw [if_pos rfl]
              show scanStr (92 :: 116 :: (escStr t ++ 34 :: rest)) = _
              rw [scanStr_escape _ _ _ (escStep_short 116 9 _ rfl), ih rest]
              rfl
            · rw [if_neg h9]
              by_cases h10 : b = 10
              · subst h10
                rw [if_pos rfl]
                show scanStr (92 :: 110 :: (escStr t ++ 34 :: rest)) = _
                rw [scanStr_escape _ _ _ (escStep_short 110 10 _ rfl), ih rest]
                rfl
              · rw [if_neg h10]
                by_cases h12 : b = 12
                · subst h12
                  rw [if_pos rfl]
                  show scanStr (92 :: 102 :: (escStr t ++ 34 :: rest)) = _
                  rw [scanStr_escape _ _ _ (escStep_short 102 12 _ rfl), ih rest]
                  rfl
                · rw [if_neg h12]
                  by_cases h13 : b = 13
                  · subst h13
                    rw [if_pos rfl]
                    show scanStr (92 :: 114 :: (escStr t ++ 34 :: rest)) = _
                    rw [scanStr_escape _ _ _ (escStep_short 114 13 _ rfl), ih rest]
                    rfl
                  · rw [if_neg h13]
                    by_cases hlt : b < 32
                    · rw [if_pos hlt]
                      simp only [List.cons_append, List.nil_append]
                      have hstep : escStep (117 :: 48 :: 48 :: hexDig (b / 16) ::
                          hexDig (b % 16) :: (escStr t ++ 34 :: rest)) =
                          some (b, escStr t ++ 34 :: rest) := by
                        simp only [escStep, escShort]
                        norm_num
                        rw [hexVal_hexDig (b / 16) (by omega), hexVal_hexDig (b % 16) (by omega)]
                        simp only [hexVal]
                        norm_num
                        omega
                      rw [scanStr_escape _ b _ hstep, ih rest]
                      rfl
                    · rw [if_neg hlt]
                      simp only [List.cons_append, List.nil_append]
                      rw [scanStr_default b _ h34 h92, ih rest]
                      rfl

/-! ## The decimal print/parse round trip. -/

theorem decChunk_append : ∀ f n acc, decChunk f n acc = decChunk f n [] ++ acc := by
  intro f
  induction f with
  | zero =>
      intro n acc
      rfl
  | succ g ih =>
      intro n acc
      by_cases h : n < 10
      · simp [decChunk, h]
      · simp only [decChunk, h, if_false]
        rw [ih (n / 10) ((48 + n % 10) :: acc), ih (n / 10) [48 + n % 10]]
        simp

theorem decChunk_digits : ∀ f n, ∀ d ∈ decChunk f n [], 48 ≤ d ∧ d ≤ 57 := by
  intro f
  induction f with
  | zero =>
      intro n d hd
      simp [decChunk] at hd
  | succ g ih =>
      intro n d hd
      by_cases h : n < 10
      · simp [decChunk, h] at hd
        omega
      · simp only [decChunk, h, if_false] at hd
        rw [decChunk_append] at hd
        simp only [List.mem_append, List.mem_singleton] at hd
        rcases hd with hd | rfl
        · exact ih (n / 10) d hd
        · omega

theorem decChunk_ne_nil (f n : Nat) : decChunk (f + 1) n [] ≠ [] := by
  by_cases h : n < 10
  · simp [decChunk, h]
  · simp only [decChunk, h, if_false]
    rw [decChunk_append]
    simp

def valAcc (a : Nat) (ds : List Nat) : Nat :=
  ds.foldl (fun x d => x * 10 + (d - 48)) a

theorem valAcc_decChunk : ∀ f n a, n < 10 ^ f →
    valAcc a (decChunk (f + 1) n []) = a * 10 ^ (decChunk (f + 1) n []).length + n := by
  intro f
  induction f with
  | zero =>
      intro n a hn
      have h0 : n = 0 := by simpa using hn
      subst h0
      simp [decChunk, valAcc]
  | succ g ih =>
      intro n a hn
      by_cases h : n < 10
      · simp [decChunk, h, valAcc]
      · have hdiv : n / 10 < 10 ^ g := by
          rw [Nat.div_lt_iff_lt_mul (by omega)]
          calc n < 10 ^ (g + 1) := hn
          _ = 10 ^ g * 10 := by ring
        have step1 : decChunk (g + 1 + 1) n [] =
            decChunk (g + 1) (n / 10) [] ++ [48 + n % 10] := by
          simp only [decChunk, h, if_false]
          exact decChunk_append (g + 1) (n / 10) [48 + n % 10]
        rw [step1]
        unfold valAcc
        rw [List.foldl_append]
        have ihv := ih (n / 10) a hdiv
        unfold valAcc at ihv
        rw [ihv]
        simp only [List.foldl_cons, List.foldl_nil, List.length_append,
          List.length_singleton]
        have hpow : 10 ^ ((decChunk (g + 1) (n / 10) []).length + 1) =
            10 ^ (decChunk (g + 1) (n / 10) []).length * 10 := by ring
        rw [hpow]
        have : (48 + n % 10) - 48 = n % 10 := by omega
        rw [this]
        have hmod := Nat.div_add_mod n 10
        ring_nf
        omega

/-- Whether the scanner would stop at the head of the input. -/
def headNotDigit : List Nat → Prop
  | [] => True
  | b :: _ => ¬(48 ≤ b ∧ b ≤ 57)

theorem parseDecAcc_digits : ∀ ds : List Nat, ∀ r : List Nat, ∀ a : Nat,
    (∀ d ∈ ds, 48 ≤ d ∧ d ≤ 57) → headNotDigit r →
    parseDecAcc a (ds ++ r) = (valAcc a ds, r) := by
  intro ds
  induction ds with
  | nil =>
      intro r a _ hr
      cases r with
      | nil => rfl
      | cons b t =>
          simp only [List.nil_append, parseDecAcc, valAcc, List.foldl_nil]
          rw [if_neg hr]
  | cons d t ih =>
      intro r a hds hr
      have hd := hds d (by simp)
      simp only [List.cons_append, parseDecAcc, valAcc, List.foldl_cons]
      rw [if_pos hd]
      exact ih r (a * 10 + (d - 48)) (fun x hx => hds x (by simp [hx])) hr

theorem parseDec_natDec (n : Nat) (r : List Nat) (hr : headNotDigit r) :
    parseDec (natDec n ++ r) = some (n, r) := by
  have hlt : n < 10 ^ (n + 1) := by
    calc n < 10 ^ n := Nat.lt_pow_self (by omega) n
    _ ≤ 10 ^ (n + 1) := Nat.pow_le_pow_right (by omega) (by omega)
  have hne : natDec n ≠ [] := decChunk_ne_nil n n
  have hdig := decChunk_digits (n + 1) n
  have hval : valAcc 0 (natDec n) = n := by
    have := valAcc_decChunk n n 0 (by
      calc n < 10 ^ n := Nat.lt_pow_self (by omega) n
      _ ≤ 10 ^ n := le_rfl)
    simpa [natDec] using this
  unfold natDec at hne hdig hval ⊢
  rcases hds : decChunk (n + 1) n [] with - | ⟨d, t⟩
  · exact absurd hds hne
  · have hd : 48 ≤ d ∧ d ≤ 57 := by
      have := hdig d (by rw [hds]; simp)
      exact this
    simp only [List.cons_append, parseDec]
    rw [if_pos hd]
    have := parseDecAcc_digits (d :: t) r 0 (by
      intro x hx
      apply hdig
      rw [hds]
      exact hx) hr
    simp only [List.cons_append] at this
    rw [this]
    rw [hds] at hval
    rw [hval]

/-! ## Literal-prefix matching and the payload round trip. -/

theorem matchPre_append : ∀ p l : List Nat, matchPre p (p ++ l) = some l := by
  intro p
  induction p with
  | nil => intro l; rfl
  | cons b t ih =>
      intro l
      show (if b = b then matchPre t (t ++ l) else none) = some l
      rw [if_pos rfl]
      exact ih l

theorem parsePayload_printPayload (p : StatePayload) :
    parsePayload (printPayload p) = some p := by
  unfold printPayload parsePayload
  simp only [List.append_assoc, List.cons_append, List.nil_append]
  rw [matchPre_append]
  simp only [Option.bind_eq_bind, Option.some_bind]
  rw [show escStr p.userId ++ 34 :: (pRoleKey ++ (escStr p.role ++ 34 :: (pExpKey ++
        (natDec p.exp ++ (pNonceKey ++ (escStr p.nonce ++ 34 :: (pCvKey ++
        (escStr p.codeVerifier ++ 34 :: [125]))))))))
      = escStr p.userId ++ 34 :: (pRoleKey ++ (escStr p.role ++ 34 :: (pExpKey ++
        (natDec p.exp ++ (pNonceKey ++ (escStr p.nonce ++ 34 :: (pCvKey ++
        (escStr p.codeVerifier ++ 34 :: [125])))))))) from rfl]
  rw [scanStr_esc]
  simp only [Option.some_bind]
  rw [matchPre_append]
  simp only [Option.some_bind]
  rw [scanStr_esc]
  simp only [Option.some_bind]
  rw [matchPre_append]
  simp only [Option.some_bind]
  rw [parseDec_natDec _ _ (by simp [pNonceKey, headNotDigit])]
  simp only [Option.some_bind]
  rw [matchPre_append]
  simp only [Option.some_bind]
  rw [scanStr_esc]
  simp only [Option.some_bind]
  rw [matchPre_append]
  simp only [Option.some_bind]
  rw [scanStr_esc]
  simp only [Option.some_bind]

/-! ## Byte-range and delimiter-freeness facts. -/

/-- A byte string: every entry below 256. -/
def isBytes (l : List Nat) : Prop := ∀ b ∈ l, b < 256

/-- No occurrence of the `'.'` delimiter. -/
def noDot (l : List Nat) : Prop := ∀ b ∈ l, b ≠ 46

instance (l : List Nat) : Decidable (isBytes l) :=
  List.decidableBAll _ l

instance (l : List Nat) : Decidable (noDot l) :=
  List.decidableBAll _ l

theorem hexDig_lt (x : Nat) (h : x ≤ 15) : hexDig x < 256 := by
  unfold hexDig
  split <;> omega

theorem hexDig_ne46 (x : Nat) : hexDig x ≠ 46 := by
  unfold hexDig
  split <;> omega

theorem escByte_lt (b : Nat) (hb : b < 256) : ∀ c ∈ escByte b, c < 256 := by
  intro c hc
  unfold escByte at hc
  by_cases h1 : b = 34
  · rw [if_pos h1] at hc
    simp at hc
    omega
  · rw [if_neg h1] at hc
    by_cases h2 : b = 92
    · rw [if_pos h2] at hc
      simp at hc
      omega
    · rw [if_neg h2] at hc
      by_cases h3 : b = 8
      · rw [if_pos h3] at hc
        simp at hc
        omega
      · rw [if_neg h3] at hc
        by_cases h4 : b = 9
        · rw [if_pos h4] at hc
          simp at hc
          omega
        · rw [if_neg h4] at hc
          by_cases h5 : b = 10
          · rw [if_pos h5] at hc
            simp at hc
            omega
          · rw [if_neg h5] at hc
            by_cases h6 : b = 12
            · rw [if_pos h6] at hc
              simp at hc
              omega
            · rw [if_neg h6] at hc
              by_cases h7 : b = 13
              · rw [if_pos h7] at hc
                simp at hc
                omega
              · rw [if_neg h7] at hc
                by_cases h8 : b < 32
                · rw [if_pos h8] at hc
                  simp at hc
                  rcases hc with rfl | rfl | rfl | rfl | rfl
                  · omega
                  · omega
                  · omega
                  · exact hexDig_lt _ (by omega)
                  · exact hexDig_lt _ (by omega)
                · rw [if_neg h8] at hc
                  simp at hc
                  omega

theorem escByte_ne46 (b : Nat) (hb : b ≠ 46) : ∀ c ∈ escByte b, c ≠ 46 := by
  intro c hc
  unfold escByte at hc
  by_cases h1 : b = 34
  · rw [if_pos h1] at hc
    simp at hc
    omega
  · rw [if_neg h1] at hc
    by_cases h2 : b = 92
    · rw [if_pos h2] at hc
      simp at hc
      omega
    · rw [if_neg h2] at hc
      by_cases h3 : b = 8
      · rw [if_pos h3] at hc
        simp at hc
        omega
      · rw [if_neg h3] at hc
        by_cases h4 : b = 9
        · rw [if_pos h4] at hc
          simp at hc
          omega
        · rw [if_neg h4] at hc
          by_cases h5 : b = 10
          · rw [if_pos h5] at hc
            simp at hc
            omega
          · rw [if_neg h5] at hc
            by_cases h6 : b = 12
            · rw [if_pos h6] at hc
              simp at hc
              omega
            · rw [if_neg h6] at hc
              by_cases h7 : b = 13
              · rw [if_pos h7] at hc
                simp at hc
                omega
              · rw [if_neg h7] at hc
                by_cases h8 : b < 32
                · rw [if_pos h8] at hc
                  simp at hc
                  rcases hc with rfl | rfl | rfl | rfl | rfl
                  · omega
                  · omega
                  · omega
                  · exact hexDig_ne46 _
                  · exact hexDig_ne46 _
                · rw [if_neg h8] at hc
                  simp at hc
                  omega

theorem escStr_mem : ∀ l : List Nat, ∀ c ∈ escStr l, ∃ b ∈ l, c ∈ escByte b := by
  intro l
  induction l with
  | nil =>
      intro c hc
      simp [escStr] at hc
  | cons b t ih =>
      intro c hc
      simp only [escStr, List.mem_append] at hc
      rcases hc with hc | hc
      · exact ⟨b, by simp, hc⟩
      · obtain ⟨x, hx, hcx⟩ := ih c hc
        exact ⟨x, by simp [hx], hcx⟩

theorem escStr_lt (l : List Nat) (h : isBytes l) : isBytes (escStr l) := by
  intro c hc
  obtain ⟨b, hb, hcb⟩ := escStr_mem l c hc
  exact escByte_lt b (h b hb) c hcb

theorem escStr_ne46 (l : List Nat) (h : noDot l) : noDot (escStr l) := by
  intro c hc
  obtain ⟨b, hb, hcb⟩ := escStr_mem l c hc
  exact escByte_ne46 b (h b hb) c hcb

theorem natDec_digit (n : Nat) : ∀ d ∈ natDec n, 48 ≤ d ∧ d ≤ 57 :=
  decChunk_digits (n + 1) n

theorem natDec_lt (n : Nat) : isBytes (natDec n) := by
  intro d hd
  have := natDec_digit n d hd
  omega

theorem natDec_ne46 (n : Nat) : noDot (natDec n) := by
  intro d hd
  have := natDec_digit n d hd
  omega

theorem printPayload_lt (p : StatePayload) (h1 : isBytes p.userId)
    (h2 : isBytes p.role) (h3 : isBytes p.nonce) (h4 : isBytes p.codeVerifier) :
    isBytes (printPayload p) := by
  intro c hc
  simp only [printPayload, List.append_assoc, List.mem_append, List.mem_cons,
    List.mem_singleton, List.not_mem_nil, or_false] at hc
  rcases hc with hc | hc | rfl | hc | hc | rfl | hc | hc | hc | hc | rfl | hc | hc | rfl | rfl
  · revert hc
    revert c
    decide
  · exact escStr_lt _ h1 c hc
  · omega
  · revert hc
    revert c
    decide
  · exact escStr_lt _ h2 c hc
  · omega
  · revert hc
    revert c
    decide
  · exact natDec_lt _ c hc
  · revert hc
    revert c
    decide
  · exact escStr_lt _ h3 c hc
  · omega
  · revert hc
    revert c
    decide
  · exact escStr_lt _ h4 c hc
  · omega
  · omega

theorem printPayload_ne46 (p : StatePayload) (h1 : noDot p.userId)
    (h2 : noDot p.role) (h3 : noDot p.nonce) (h4 : noDot p.codeVerifier) :
    noDot (printPayload p) := by
  intro c hc
  simp only [printPayload, List.append_assoc, List.mem_append, List.mem_cons,
    List.mem_singleton, List.not_mem_nil, or_false] at hc
  rcases hc with hc | hc | rfl | hc | hc | rfl | hc | hc | hc | hc | rfl | hc | hc | rfl | rfl
  · revert hc
    revert c
    decide
  · exact escStr_ne46 _ h1 c hc
  · omega
  · revert hc
    revert c
    decide
  · exact escStr_ne46 _ h2 c hc
  · omega
  · revert hc
    revert c
    decide
  · exact natDec_ne46 _ c hc
  · revert hc
    revert c
    decide
  · exact escStr_ne46 _ h3 c hc
  · omega
  · revert hc
    revert c
    decide
  · exact escStr_ne46 _ h4 c hc
  · omega
  · omega

theorem printPayload_ne_nil (p : StatePayload) : printPayload p ≠ [] := by
  simp [printPayload, pUserKey]

/-! ## Facts about the HMAC output characters. -/

theorem wb_lt (w : Nat) : ∀ b ∈ wb w, b < 256 := by
  intro b hb
  simp only [wb, List.mem_cons, List.mem_singleton, List.not_mem_nil, or_false] at hb
  rcases hb with rfl | rfl | rfl | rfl <;> omega

theorem sha256F_lt (m : List Nat) : isBytes (sha256F m) := by
  intro b hb
  unfold sha256F at hb
  simp only [List.mem_append] at hb
  rcases hb with ((((((hb | hb) | hb) | hb) | hb) | hb) | hb) | hb <;> exact wb_lt _ b hb

theorem sha256F_ne_nil (m : List Nat) : sha256F m ≠ [] := by
  unfold sha256F wb
  simp

theorem urlTr_b64c_alpha : ∀ v, v < 64 →
    (65 ≤ urlTr (b64c v) ∧ urlTr (b64c v) ≤ 90) ∨
    (97 ≤ urlTr (b64c v) ∧ urlTr (b64c v) ≤ 122) ∨
    (48 ≤ urlTr (b64c v) ∧ urlTr (b64c v) ≤ 57) ∨
    urlTr (b64c v) = 45 ∨ urlTr (b64c v) = 95 := by decide

/-- Every character of a base64url encoding lies in the url-safe
alphabet. -/
theorem base64urlEncode_alpha (l : List Nat) (h : isBytes l) :
    ∀ c ∈ base64urlEncode l,
      (65 ≤ c ∧ c ≤ 90) ∨ (97 ≤ c ∧ c ≤ 122) ∨ (48 ≤ c ∧ c ≤ 57) ∨ c = 45 ∨ c = 95 := by
  intro c hc
  unfold base64urlEncode at hc
  rw [filter61_map_urlTr] at hc
  simp only [List.mem_map] at hc
  obtain ⟨x, hx, rfl⟩ := hc
  have hgood : goodChar x := b64e_good l h x (List.mem_filter.mp hx).1
  have hne : x ≠ 61 := by
    have := (List.mem_filter.mp hx).2
    simpa using this
  rcases hgood with rfl | ⟨v, hv, rfl⟩
  · exact absurd rfl hne
  · exact urlTr_b64c_alpha v hv

theorem base64urlEncode_lt (l : List Nat) (h : isBytes l) :
    isBytes (base64urlEncode l) := by
  intro c hc
  have := base64urlEncode_alpha l h c hc
  omega

theorem base64urlEncode_ne46 (l : List Nat) (h : isBytes l) :
    noDot (base64urlEncode l) := by
  intro c hc
  have := base64urlEncode_alpha l h c hc
  omega

theorem base64urlEncode_ne_nil (l : List Nat) (hl : l ≠ []) (h : isBytes l) :
    base64urlEncode l ≠ [] := by
  match l with
  | [] => exact absurd rfl hl
  | [a] =>
      have ha : a < 256 := h a (by simp)
      have h1 : urlTr (b64c (a / 4)) ≠ 61 := urlTr_ne_61 _ (by omega)
      simp [base64urlEncode, b64e, List.filter_cons, h1]
  | [a, b] =>
      have ha : a < 256 := h a (by simp)
      have h1 : urlTr (b64c (a / 4)) ≠ 61 := urlTr_ne_61 _ (by omega)
      simp [base64urlEncode, b64e, List.filter_cons, h1]
  | a :: b :: c :: r =>
      have ha : a < 256 := h a (by simp)
      have h1 : urlTr (b64c (a / 4)) ≠ 61 := urlTr_ne_61 _ (by omega)
      simp [base64urlEncode, b64e, List.filter_cons, h1]

theorem hmacSha256_lt (m s : List Nat) : isBytes (hmacSha256 m s) :=
  base64urlEncode_lt _ (sha256F_lt _)

theorem hmacSha256_ne46 (m s : List Nat) : noDot (hmacSha256 m s) :=
  base64urlEncode_ne46 _ (sha256F_lt _)

theorem hmacSha256_ne_nil (m s : List Nat) : hmacSha256 m s ≠ [] :=
  base64urlEncode_ne_nil _ (sha256F_ne_nil _) (sha256F_lt _)

/-! ## The codec round trip. -/

/-- Decoding an encoding recovers the payload, up to the expiry check,
whenever the payload's string fields are dot-free byte strings. -/
theorem decode_encode_core (p : StatePayload) (secret : List Nat) (now : Nat)
    (hu1 : isBytes p.userId) (hu2 : noDot p.userId)
    (hr1 : isBytes p.role) (hr2 : noDot p.role)
    (hn1 : isBytes p.nonce) (hn2 : noDot p.nonce)
    (hv1 : isBytes p.codeVerifier) (hv2 : noDot p.codeVerifier) :
    decodeState (encodeState p secret) secret now =
      (if p.exp < now then .error .StateExpired else .ok p) := by
  have hjb : isBytes (printPayload p) := printPayload_lt p hu1 hr1 hn1 hv1
  have hjd : noDot (printPayload p) := printPayload_ne46 p hu2 hr2 hn2 hv2
  have hsb : isBytes (hmacSha256 (printPayload p) secret) := hmacSha256_lt _ _
  have hsd : noDot (hmacSha256 (printPayload p) secret) := hmacSha256_ne46 _ _
  have hall : isBytes (printPayload p ++ 46 :: hmacSha256 (printPayload p) secret) := by
    intro b hb
    simp only [List.mem_append, List.mem_cons] at hb
    rcases hb with hb | rfl | hb
    · exact hjb b hb
    · omega
    · exact hsb b hb
  unfold decodeState encodeState
  rw [b64url_roundtrip _ hall]
  simp only [splitDot_append _ _ hjd, splitDot_no46 _ hsd]
  rw [if_neg (by
    simp only [not_or]
    exact ⟨printPayload_ne_nil p, hmacSha256_ne_nil _ _⟩)]
  rw [if_pos ((constantTimeEqual_eq_true_iff _ _).mpr rfl)]
  simp only [parsePayload_printPayload]

/-! ## Claims C1, C6, C7: the state codec. -/

/-- C1 (amended): for every state payload whose string fields are
dot-free byte strings — which every payload built by the
authorization-start handler from a dot-free `userId` is, since `role`,
`nonce` and `codeVerifier` are drawn from dot-free alphabets — decoding
the encoder's output under the same secret at a time not past `exp`
succeeds and yields the original payload. -/
theorem claim_C1_state_roundtrip (p : StatePayload) (secret : List Nat) (now : Nat)
    (hu1 : isBytes p.userId) (hu2 : noDot p.userId)
    (hr1 : isBytes p.role) (hr2 : noDot p.role)
    (hn1 : isBytes p.nonce) (hn2 : noDot p.nonce)
    (hv1 : isBytes p.codeVerifier) (hv2 : noDot p.codeVerifier)
    (hexp : now ≤ p.exp) :
    decodeState (encodeState p secret) secret now = .ok p := by
  rw [decode_encode_core p secret now hu1 hu2 hr1 hr2 hn1 hn2 hv1 hv2,
      if_neg (by omega)]

def secW : List Nat := [115, 101, 99]

def pGoodW : StatePayload := ⟨[117, 49], bHUMAN, 700, [110, 111], [99, 118]⟩

/-- Witness for C1 (amended) at a concrete payload and secret. -/
theorem claim_C1_state_roundtrip_witness :
    decodeState (encodeState pGoodW secW) secW 700 = .ok pGoodW :=
  claim_C1_state_roundtrip pGoodW secW 700 (by decide) (by decide) (by decide)
    (by decide) (by decide) (by decide) (by decide) (by decide) (by decide)

def pDotW : StatePayload := ⟨[97, 46, 98], bPET, 9, [110], [118]⟩

/-- C1 counterexample: the authorization-start handler accepts any
non-empty `userId`, but for the payload with `userId = "a.b"` (and the
other fields as the handler would build them) the callback's validator
splits the decoded state at the first `'.'`, so the recomputed
signature is taken over a truncated JSON prefix and validation fails
with `InvalidSignature` even though nothing was tampered with and the
state is not expired. -/
theorem claim_C1_state_roundtrip_cex :
    decodeState (encodeState pDotW secW) secW 0 = .error .InvalidSignature ∧
    decodeState (encodeState pDotW secW) secW 0 ≠ .ok pDotW := by
  have h : decodeState (encodeState pDotW secW) secW 0 = .error .InvalidSignature := by
    decide
  refine ⟨h, ?_⟩
  rw [h]
  intro hcon
  cases hcon

/-- C6: decoding a correctly signed but expired payload fails with
`StateExpired`, and the callback surfaces this as the `invalid_state`
redirect. -/
theorem claim_C6_state_expired (p : StatePayload) (secret : List Nat) (now : Nat)
    (hu1 : isBytes p.userId) (hu2 : noDot p.userId)
    (hr1 : isBytes p.role) (hr2 : noDot p.role)
    (hn1 : isBytes p.nonce) (hn2 : noDot p.nonce)
    (hv1 : isBytes p.codeVerifier) (hv2 : noDot p.codeVerifier)
    (hexp : p.exp < now) :
    decodeState (encodeState p secret) secret now = .error .StateExpired ∧
    (∀ url ci cs, ∀ o : CallbackOracle, ∀ db : Db, ∀ c : List Nat, c ≠ [] →
      oauthCallback ⟨url, some secret, ci, cs⟩
        ⟨bPOST, some c, some (encodeState p secret), none⟩ o db now =
        ⟨⟨302, some (url ++ qInvalidState)⟩, db⟩) := by
  have hdec : decodeState (encodeState p secret) secret now = .error .StateExpired := by
    rw [decode_encode_core p secret now hu1 hu2 hr1 hr2 hn1 hn2 hv1 hv2,
        if_pos hexp]
  refine ⟨hdec, ?_⟩
  intro url ci cs o db c hcne
  have hencne : encodeState p secret ≠ [] := by
    unfold encodeState
    apply base64urlEncode_ne_nil
    · simp
    · intro b hb
      simp only [List.mem_append, List.mem_cons] at hb
      rcases hb with hb | rfl | hb
      · exact printPayload_lt p hu1 hr1 hn1 hv1 b hb
      · omega
      · exact hmacSha256_lt _ _ b hb
  unfold oauthCallback
  rw [if_neg (show ¬(bPOST = bOPTIONS) by decide)]
  rw [if_neg (show ¬(jsStr (none : Option (List Nat)) ≠ []) by simp [jsStr])]
  rw [if_neg (show ¬(jsStr (some c) = [] ∨ jsStr (some (encodeState p secret)) = []) by
    simp [jsStr, hcne, hencne])]
  simp only [jsStr]
  rw [hdec]

def pExpW : StatePayload := ⟨[117, 49], bHUMAN, 10, [110], [118]⟩

/-- Witness for C6 at a concrete expired payload. -/
theorem claim_C6_state_expired_witness :
    decodeState (encodeState pExpW secW) secW 11 = .error .StateExpired ∧
    oauthCallback ⟨[104], some secW, some [1], some [2]⟩
      ⟨bPOST, some [99], some (encodeState pExpW secW), none⟩
      ⟨.fail, false, 0⟩ ⟨[], []⟩ 11 =
      ⟨⟨302, some ([104] ++ qInvalidState)⟩, ⟨[], []⟩⟩ := by
  have h := claim_C6_state_expired pExpW secW 11 (by decide) (by decide) (by decide)
    (by decide) (by decide) (by decide) (by decide) (by decide) (by decide)
  exact ⟨h.1, h.2 [104] (some [1]) (some [2]) ⟨.fail, false, 0⟩ ⟨[], []⟩ [99] (by decide)⟩

/-- C7 (amended): decoding fails with `MalformedState` exactly in the
cases the code checks — the decoded byte string has no `'.'` at all, or
the first or second part of the split is empty.  Parts beyond the
second are silently ignored (see the counterexample). -/
theorem claim_C7_malformed_state (s sec : List Nat) (now : Nat) (bs : List Nat)
    (hdec : base64urlDecode s = some bs)
    (hsplit : match splitDot bs with
              | j :: g :: _ => j = [] ∨ g = []
              | _ => True) :
    decodeState s sec now = .error .MalformedState := by
  unfold decodeState
  rw [hdec]
  dsimp only
  rcases hs : splitDot bs with - | ⟨j, - | ⟨g, rest⟩⟩
  · rfl
  · rfl
  · rw [hs] at hsplit
    have h2 : j = [] ∨ g = [] := hsplit
    show (if j = [] ∨ g = [] then Except.error AuthError.MalformedState
          else _) = Except.error AuthError.MalformedState
    rw [if_pos h2]

/-- Witness for C7 (amended): a state whose decoded bytes contain no
dot is rejected as malformed. -/
theorem claim_C7_malformed_state_witness :
    decodeState (base64urlEncode [97, 98]) [107] 0 = .error .MalformedState :=
  claim_C7_malformed_state (base64urlEncode [97, 98]) [107] 0 [97, 98]
    (by decide) (by simp [splitDot])

def s3W : List Nat := base64urlEncode [97, 46, 98, 46, 99]

/-- C7 counterexample: the opaque state decoding to `"a.b.c"` splits
into three non-empty parts — so by the claim it should fail with
`MalformedState` — but the callback destructures only the first two
parts and proceeds to the signature check, failing with
`InvalidSignature` instead. -/
theorem claim_C7_malformed_state_cex :
    splitDot [97, 46, 98, 46, 99] = [[97], [98], [99]] ∧
    base64urlDecode s3W = some [97, 46, 98, 46, 99] ∧
    decodeState s3W [107] 0 = .error .InvalidSignature := by
  refine ⟨by decide, by decide, by decide⟩

/-! ## Claims C2 and C4: the callback handler. -/

/-- Every non-preflight invocation of the callback handler produces a
302 redirect with a `Location` header. -/
theorem cb_shape (env : CallbackEnv) (req : CallbackReq) (o : CallbackOracle)
    (db : Db) (now : Nat) (hm : req.method ≠ bOPTIONS) :
    ∃ loc db2, oauthCallback env req o db now = ⟨⟨302, some loc⟩, db2⟩ := by
  unfold oauthCallback
  rw [if_neg hm]
  simp only [cbUpsert]
  repeat' split
  all_goals exact ⟨_, _, rfl⟩

/-- C2: whatever the outcome, the callback responds with a 302 redirect
carrying a `Location`, and that location is invariant under replacing
the access/refresh credential pair returned by the provider's token
endpoint — the redirect can never contain (or depend on) the token
material. -/
theorem claim_C2_no_token_leak (env : CallbackEnv) (req : CallbackReq)
    (o : CallbackOracle) (db : Db) (now : Nat) (a r : List Nat)
    (hm : req.method ≠ bOPTIONS) :
    ((oauthCallback env req o db now).resp.status = 302 ∧
     ((oauthCallback env req o db now).resp.location).isSome = true) ∧
    (oauthCallback env req (withTokens o a r) db now).resp.location =
      (oauthCallback env req o db now).resp.location := by
  constructor
  · obtain ⟨loc, db2, hsh⟩ := cb_shape env req o db now hm
    rw [hsh]
    exact ⟨rfl, rfl⟩
  · obtain ⟨tr, uf, ni⟩ := o
    cases tr with
    | fail => rfl
    | ok td =>
        unfold oauthCallback withTokens
        rw [if_neg hm, if_neg hm]
        dsimp only
        repeat' split
        all_goals first | rfl | (unfold cbUpsert; split <;> rfl)

/-- Witness for C2 at a concrete request: the provider error branch. -/
theorem claim_C2_no_token_leak_witness :
    ((oauthCallback ⟨[104], none, none, none⟩ ⟨bPOST, none, none, some [120]⟩
        ⟨.fail, false, 0⟩ ⟨[], []⟩ 0).resp.status = 302 ∧
     ((oauthCallback ⟨[104], none, none, none⟩ ⟨bPOST, none, none, some [120]⟩
        ⟨.fail, false, 0⟩ ⟨[], []⟩ 0).resp.location).isSome = true) ∧
    (oauthCallback ⟨[104], none, none, none⟩ ⟨bPOST, none, none, some [120]⟩
        (withTokens ⟨.fail, false, 0⟩ [5] [6]) ⟨[], []⟩ 0).resp.location =
      (oauthCallback ⟨[104], none, none, none⟩ ⟨bPOST, none, none, some [120]⟩
        ⟨.fail, false, 0⟩ ⟨[], []⟩ 0).resp.location :=
  claim_C2_no_token_leak ⟨[104], none, none, none⟩ ⟨bPOST, none, none, some [120]⟩
    ⟨.fail, false, 0⟩ ⟨[], []⟩ 0 [5] [6] (by decide)

/-- C4: when a connection for the same (user, external athlete id)
already exists under the other role, the callback redirects with
`athlete_role_conflict` carrying the athlete id and leaves the store
unchanged — symmetrically in the two roles, since only inequality of
the stored and requested role is tested. -/
theorem claim_C4_role_conflict (env : CallbackEnv) (req : CallbackReq)
    (o : CallbackOracle) (db : Db) (now : Nat) (sec : List Nat) (ci cs : List Nat)
    (p : StatePayload) (td : TokenData) (ec : Connection)
    (hm : req.method ≠ bOPTIONS)
    (he : jsStr req.errorParam = [])
    (hc : jsStr req.code ≠ [])
    (hs : jsStr req.stateParam ≠ [])
    (hsec : env.stateSecret = some sec)
    (hdec : decodeState (jsStr req.stateParam) sec now = .ok p)
    (hci : env.clientId = some ci)
    (hcs : env.clientSecret = some cs)
    (htok : o.tokenResp = .ok td)
    (hfind : db.connections.find? (fun c =>
        c.user_id == p.userId && c.athlete_id == td.athlete.id) = some ec)
    (hrole : ec.role ≠ p.role) :
    oauthCallback env req o db now =
      ⟨⟨302, some (env.supabaseUrl ++ qRoleConflict ++ natDec td.athlete.id)⟩, db⟩ := by
  unfold oauthCallback
  rw [if_neg hm, if_neg (by simp [he]), if_neg (by simp [hc, hs]), hsec]
  dsimp only
  rw [hdec]
  dsimp only
  rw [hci, hcs]
  dsimp only
  rw [htok]
  dsimp only
  rw [hfind]
  dsimp only
  rw [if_pos hrole]

def pC4W : StatePayload := ⟨[117], bPET, 99, [110], [118]⟩

def tdC4W : TokenData := ⟨[1, 2], [3, 4], 777, ⟨7, none, none, none, none, none⟩⟩

def ecC4W : Connection := ⟨1, [117], bHUMAN, 7, [], [], none, [5], [6], 50⟩

/-- Witness for C4: a PET-role attempt against an existing HUMAN-role
connection for the same athlete id is rejected with the conflict
redirect and the store is untouched. -/
theorem claim_C4_role_conflict_witness :
    oauthCallback ⟨[104], some secW, some [3], some [4]⟩
      ⟨bPOST, some [99], some (encodeState pC4W secW), none⟩
      ⟨.ok tdC4W, false, 9⟩ ⟨[ecC4W], []⟩ 5 =
      ⟨⟨302, some ([104] ++ qRoleConflict ++ natDec 7)⟩, ⟨[ecC4W], []⟩⟩ :=
  claim_C4_role_conflict ⟨[104], some secW, some [3], some [4]⟩
    ⟨bPOST, some [99], some (encodeState pC4W secW), none⟩
    ⟨.ok tdC4W, false, 9⟩ ⟨[ecC4W], []⟩ 5 secW [3] [4] pC4W tdC4W ecC4W
    (by decide) rfl
    (by
      intro h
      simp [jsStr] at h)
    (by
      intro h
      have := base64urlEncode_ne_nil (printPayload pC4W ++ 46 ::
        hmacSha256 (printPayload pC4W) secW) (by simp)
        (by
          intro b hb
          simp only [List.mem_append, List.mem_cons] at hb
          rcases hb with hb | rfl | hb
          · exact printPayload_lt pC4W (by decide) (by decide) (by decide) (by decide) b hb
          · omega
          · exact hmacSha256_lt _ _ b hb)
      exact this h)
    rfl
    (by
      show decodeState (encodeState pC4W secW) secW 5 = .ok pC4W
      rw [decode_encode_core pC4W secW 5 (by decide) (by decide) (by decide)
          (by decide) (by decide) (by decide) (by decide) (by decide),
          if_neg (by decide)])
    rfl rfl rfl (by decide) (by decide)

/-! ## Claims C5 and C10: GPX generation. -/

theorem foldl_append_flatten (f : Nat → List Nat) : ∀ l : List Nat, ∀ a : List Nat,
    l.foldl (fun acc i => acc ++ f i) a = a ++ (l.map f).flatten := by
  intro l
  induction l with
  | nil =>
      intro a
      simp
  | cons x t ih =>
      intro a
      simp only [List.foldl_cons, List.map_cons, List.flatten_cons, ih,
        List.append_assoc]

/-- The byte string of one track point, phrased in terms of the
absolute timestamp (activity start time plus stream offset). -/
def trkptShape (latS lonS : List Nat) (tAbsMs : Nat) (eleS : Option (List Nat)) : List Nat :=
  tp1 ++ latS ++ tp2 ++ lonS ++ tp3 ++ toISO tAbsMs ++ tp4 ++
  (match eleS with
   | some e => tpEle1 ++ e ++ tpEle2
   | none => []) ++ tpEnd

/-- C5: for an activity with `n` GPS samples the generated GPX consists
of the XML template wrapping exactly `n` track points, the `i`-th
rendered at the absolute timestamp `startMs + time[i] * 1000`, with the
elevation element omitted per point when the altitude stream is absent
(final conjunct: the explicit elevation-free form). -/
theorem claim_C5_gpx_points (appName titlePre : List Nat) (activity : StravaActivity)
    (latlng : List (List Nat × List Nat)) (time : List Nat)
    (altitude : Option (List (List Nat))) (n : Nat)
    (hn : latlng.length = n) :
    ((List.range n).map (fun i => trkptShape (latlng.getD i ([], [])).1
        (latlng.getD i ([], [])).2 (activity.startMs + time.getD i 0 * 1000)
        (altitude.map (fun alt => alt.getD i [])))).length = n ∧
    generateGPX appName titlePre activity latlng time altitude =
      gpxA ++ appName ++ gpxB ++ titlePre ++ activity.name ++ gpxC ++
      toISO activity.startMs ++ gpxD ++ titlePre ++ activity.name ++ gpxE ++
      ((List.range n).map (fun i => trkptShape (latlng.getD i ([], [])).1
        (latlng.getD i ([], [])).2 (activity.startMs + time.getD i 0 * 1000)
        (altitude.map (fun alt => alt.getD i [])))).flatten ++ gpxF ∧
    (altitude = none →
      generateGPX appName titlePre activity latlng time altitude =
        gpxA ++ appName ++ gpxB ++ titlePre ++ activity.name ++ gpxC ++
        toISO activity.startMs ++ gpxD ++ titlePre ++ activity.name ++ gpxE ++
        ((List.range n).map (fun i =>
          tp1 ++ (latlng.getD i ([], [])).1 ++ tp2 ++ (latlng.getD i ([], [])).2 ++
          tp3 ++ toISO (activity.startMs + time.getD i 0 * 1000) ++ tp4 ++
          tpEnd)).flatten ++ gpxF) := by
  have hpt : ∀ i, trkptFor activity.startMs latlng time altitude i =
      trkptShape (latlng.getD i ([], [])).1 (latlng.getD i ([], [])).2
        (activity.startMs + time.getD i 0 * 1000)
        (altitude.map (fun alt => alt.getD i [])) := by
    intro i
    cases altitude <;> rfl
  have hmain : generateGPX appName titlePre activity latlng time altitude =
      gpxA ++ appName ++ gpxB ++ titlePre ++ activity.name ++ gpxC ++
      toISO activity.startMs ++ gpxD ++ titlePre ++ activity.name ++ gpxE ++
      ((List.range n).map (fun i => trkptShape (latlng.getD i ([], [])).1
        (latlng.getD i ([], [])).2 (activity.startMs + time.getD i 0 * 1000)
        (altitude.map (fun alt => alt.getD i [])))).flatten ++ gpxF := by
    unfold generateGPX
    rw [foldl_append_flatten, hn, List.map_congr_left (fun i _ => hpt i)]
    simp [List.append_assoc]
  refine ⟨by simp, hmain, ?_⟩
  rintro rfl
  rw [hmain]
  simp only [Option.map_none, trkptShape]
  simp [List.append_assoc]

/-- Witness for C5 at a concrete 3-sample activity without altitude. -/
theorem claim_C5_gpx_points_witness :
    (((List.range 3).map (fun i => trkptShape
        (([([49], [50]), ([51], [52]), ([53], [54])].getD i ([], []))).1
        (([([49], [50]), ([51], [52]), ([53], [54])].getD i ([], []))).2
        (((⟨8, 7, [78], 1000⟩ : StravaActivity)).startMs + [5, 10, 15].getD i 0 * 1000)
        ((none : Option (List (List Nat))).map (fun alt => alt.getD i [])))).length = 3) ∧
    generateGPX [65] [80] ⟨8, 7, [78], 1000⟩ [([49], [50]), ([51], [52]), ([53], [54])]
        [5, 10, 15] none =
      gpxA ++ [65] ++ gpxB ++ [80] ++ [78] ++ gpxC ++ toISO 1000 ++ gpxD ++ [80] ++
      [78] ++ gpxE ++
      ((List.range 3).map (fun i => trkptShape
        (([([49], [50]), ([51], [52]), ([53], [54])].getD i ([], []))).1
        (([([49], [50]), ([51], [52]), ([53], [54])].getD i ([], []))).2
        (1000 + [5, 10, 15].getD i 0 * 1000)
        ((none : Option (List (List Nat))).map (fun alt => alt.getD i [])))).flatten ++
      gpxF := by
  have h := claim_C5_gpx_points [65] [80] ⟨8, 7, [78], 1000⟩
    [([49], [50]), ([51], [52]), ([53], [54])] [5, 10, 15] none 3 (by decide)
  exact ⟨h.1, h.2.1⟩

def bNameOpen : List Nat := [60, 110, 97, 109, 101, 62]

def bNameClose : List Nat := [60, 47, 110, 97, 109, 101, 62]

def gpxBpre : List Nat := [34, 62, 10, 32, 32, 60, 109, 101, 116, 97, 100, 97,
  116, 97, 62, 10, 32, 32, 32, 32]

def gpxCsuf : List Nat := [10, 32, 32, 32, 32, 60, 116, 105, 109, 101, 62]

def gpxDpre : List Nat := [60, 47, 116, 105, 109, 101, 62, 10, 32, 32, 60, 47,
  109, 101, 116, 97, 100, 97, 116, 97, 62, 10, 32, 32, 60, 116, 114, 107, 62,
  10, 32, 32, 32, 32]

def gpxEsuf : List Nat := [10, 32, 32, 32, 32, 60, 116, 114, 107, 115, 101,
  103, 62, 10]

/-- Well-formedness of an XML text node: no raw `<` or `&`. -/
def xmlTextOk (l : List Nat) : Prop := 60 ∉ l ∧ 38 ∉ l

/-- C10: both name elements of the generated GPX embed the
prefix-plus-activity-name verbatim, with no escaping; hence when the
name contains `<` or `&` the element content holds a raw markup byte
and the document is not well-formed XML. -/
theorem claim_C10_gpx_name_verbatim (appName titlePre : List Nat)
    (activity : StravaActivity) (latlng : List (List Nat × List Nat))
    (time : List Nat) (altitude : Option (List (List Nat))) :
    (∃ x1 x2 x3, generateGPX appName titlePre activity latlng time altitude =
      x1 ++ (bNameOpen ++ (titlePre ++ activity.name) ++ bNameClose) ++ x2 ++
      (bNameOpen ++ (titlePre ++ activity.name) ++ bNameClose) ++ x3) ∧
    ((60 ∈ activity.name ∨ 38 ∈ activity.name) →
      ¬ xmlTextOk (titlePre ++ activity.name)) := by
  constructor
  · refine ⟨gpxA ++ appName ++ gpxBpre,
      gpxCsuf ++ toISO activity.startMs ++ gpxDpre,
      gpxEsuf ++ ((List.range latlng.length).foldl
        (fun acc i => acc ++ trkptFor activity.startMs latlng time altitude i) []) ++
        gpxF, ?_⟩
    unfold generateGPX
    rw [show gpxB = gpxBpre ++ bNameOpen from by decide,
        show gpxC = bNameClose ++ gpxCsuf from by decide,
        show gpxD = gpxDpre ++ bNameOpen from by decide,
        show gpxE = bNameClose ++ gpxEsuf from by decide]
    simp [List.append_assoc]
  · rintro h ⟨hn60, hn38⟩
    rcases h with h | h
    · exact hn60 (by simp [h])
    · exact hn38 (by simp [h])

/-- Witness for C10: a name containing `<` makes the embedded name
element content fail XML text-node well-formedness. -/
theorem claim_C10_gpx_name_verbatim_witness :
    ¬ xmlTextOk ([80] ++ [60, 97]) :=
  (claim_C10_gpx_name_verbatim [65] [80] ⟨1, 2, [60, 97], 0⟩ [] [] none).2
    (Or.inl (by decide))

/-! ## Claim C3: idempotent mirroring. -/

theorem find?_append_none {α : Type} (p : α → Bool) (l1 l2 : List α)
    (h : l1.find? p = none) : (l1 ++ l2).find? p = l2.find? p := by
  induction l1 with
  | nil => rfl
  | cons a t ih =>
      by_cases hp : p a
      · rw [List.find?_cons_of_pos t hp] at h
        simp at h
      · rw [List.find?_cons_of_neg t hp] at h
        rw [List.cons_append, List.find?_cons_of_neg _ hp]
        exact ih h

/-- C3: once a mirror call for a (user, source activity id) pair has
completed — upload succeeded and the PENDING record was persisted — a
second call for the same pair by the same user returns the
`AlreadyMirrored` error carrying that record, changes nothing in the
store, and performs no upload at all. -/
theorem claim_C3_mirror_idempotent
    (req : MirrorReq) (o1 o2 : MirrorOracle) (db : Db) (now1 now2 : Nat)
    (appName titlePre : List Nat) (uid : List Nat) (activityId : Nat)
    (hc hpc : Connection) (activity : StravaActivity) (streams : StravaStream)
    (latlng : List (List Nat × List Nat)) (time : List Nat) (upId : Nat)
    (hm : req.method = bPOST)
    (hauth : req.hasAuthHeader = true)
    (hu1 : o1.authUser = some uid)
    (hurl : extractActivityId req.activityUrl = some activityId)
    (hnm : db.mirrors.find? (fun m =>
        m.user_id == uid && m.source_activity_id == activityId) = none)
    (hcf : o1.connectionsFail = false)
    (hhc : (db.connections.filter (fun c => c.user_id == uid)).find?
        (fun c => c.role == bHUMAN) = some hc)
    (hpcf : (db.connections.filter (fun c => c.user_id == uid)).find?
        (fun c => c.role == bPET) = some hpc)
    (hhr : ∃ t, (refreshTokenIfNeeded hc now1 o1.humanRefresh).result = .ok t)
    (hpr : ∃ t, (refreshTokenIfNeeded hpc now1 o1.petRefresh).result = .ok t)
    (hact : o1.activityResp = .ok activity)
    (hown : activity.athleteId = hc.athlete_id)
    (hstr : o1.streamsResp = .ok streams)
    (hll : streams.latlng = some latlng)
    (htt : streams.time = some time)
    (hup : o1.uploadResp = .ok upId)
    (hins : o1.insertFails = false)
    (hu2 : o2.authUser = some uid) :
    (mirrorActivity req o1 db now1 appName titlePre).res =
      .success upId (some ⟨o1.insertId, uid, activityId, bPENDING⟩)
        activity.id activity.name ∧
    (mirrorActivity req o1 db now1 appName titlePre).uploads =
      [generateGPX appName titlePre activity latlng time streams.altitude] ∧
    (mirrorActivity req o1 db now1 appName titlePre).db.mirrors =
      db.mirrors ++ [⟨o1.insertId, uid, activityId, bPENDING⟩] ∧
    mirrorActivity req o2 (mirrorActivity req o1 db now1 appName titlePre).db
        now2 appName titlePre =
      ⟨.alreadyMirrored ⟨o1.insertId, uid, activityId, bPENDING⟩,
       (mirrorActivity req o1 db now1 appName titlePre).db, []⟩ := by
  obtain ⟨meth, hA, aurl⟩ := req
  simp only at hm hauth hurl
  subst hm hauth
  obtain ⟨t1, ht1⟩ := hhr
  obtain ⟨t2, ht2⟩ := hpr
  have hmo : ¬(bPOST = bOPTIONS) := by decide
  have h1 : mirrorActivity ⟨bPOST, true, aurl⟩ o1 db now1 appName titlePre =
      ⟨.success upId (some ⟨o1.insertId, uid, activityId, bPENDING⟩)
         activity.id activity.name,
       ⟨(if (refreshTokenIfNeeded hpc now1 o1.petRefresh).persisted then
           updConn (if (refreshTokenIfNeeded hc now1 o1.humanRefresh).persisted then
             updConn db.connections (refreshTokenIfNeeded hc now1 o1.humanRefresh).conn
           else db.connections) (refreshTokenIfNeeded hpc now1 o1.petRefresh).conn
         else (if (refreshTokenIfNeeded hc now1 o1.humanRefresh).persisted then
           updConn db.connections (refreshTokenIfNeeded hc now1 o1.humanRefresh).conn
         else db.connections)),
        db.mirrors ++ [⟨o1.insertId, uid, activityId, bPENDING⟩]⟩,
       [generateGPX appName titlePre activity latlng time streams.altitude]⟩ := by
    unfold mirrorActivity
    rw [if_neg hmo, if_neg (by simp), if_neg (by simp), hu1]
    dsimp only
    rw [hurl]
    dsimp only
    rw [hnm]
    dsimp only
    rw [hcf]
    rw [if_neg (by simp)]
    rw [hhc, hpcf]
    dsimp only
    rw [ht1]
    dsimp only
    rw [ht2]
    dsimp only
    rw [hact]
    dsimp only
    rw [if_neg (by simp [hown])]
    rw [hstr]
    dsimp only
    rw [hll, htt]
    dsimp only
    rw [hup]
    dsimp only
    rw [hins]
    rw [if_neg (by simp)]
  refine ⟨by rw [h1], by rw [h1], by rw [h1], ?_⟩
  rw [h1]
  unfold mirrorActivity
  rw [if_neg hmo, if_neg (by simp), if_neg (by simp), hu2]
  dsimp only
  rw [hurl]
  dsimp only
  rw [find?_append_none _ _ _ hnm]
  rw [show ([(⟨o1.insertId, uid, activityId, bPENDING⟩ : MirrorRec)].find? (fun m =>
      m.user_id == uid && m.source_activity_id == activityId)) =
      some ⟨o1.insertId, uid, activityId, bPENDING⟩ from
    List.find?_cons_of_pos _ (by simp)]

def reqC3W : MirrorReq := ⟨bPOST, true, [47, 97, 99, 116, 105, 118, 105, 116,
  105, 101, 115, 47, 53]⟩

def hcC3W : Connection := ⟨1, [117], bHUMAN, 7, [], [], none, [1], [2], 1000000⟩

def pcC3W : Connection := ⟨2, [117], bPET, 8, [], [], none, [3], [4], 1000000⟩

def actC3W : StravaActivity := ⟨5, 7, [78], 1000⟩

def strmC3W : StravaStream := ⟨some [([49], [50])], some [5], none⟩

def oC3W1 : MirrorOracle := ⟨some [117], false, .fail, .fail, .ok actC3W,
  .ok strmC3W, .ok 42, false, 3⟩

def oC3W2 : MirrorOracle := ⟨some [117], false, .fail, .fail, .fail, .fail,
  .fail, true, 0⟩

def dbC3W : Db := ⟨[hcC3W, pcC3W], []⟩

/-- Witness for C3: after a completed first mirror call, the second
call returns `AlreadyMirrored` with the created record, leaves the
store unchanged, and uploads nothing. -/
theorem claim_C3_mirror_idempotent_witness :
    mirrorActivity reqC3W oC3W2 (mirrorActivity reqC3W oC3W1 dbC3W 10 [65] [80]).db
        11 [65] [80] =
      ⟨.alreadyMirrored ⟨3, [117], 5, bPENDING⟩,
       (mirrorActivity reqC3W oC3W1 dbC3W 10 [65] [80]).db, []⟩ :=
  (claim_C3_mirror_idempotent reqC3W oC3W1 oC3W2 dbC3W 10 11 [65] [80] [117] 5
    hcC3W pcC3W actC3W strmC3W [([49], [50])] [5] 42
    rfl rfl rfl (by decide) (by decide) rfl (by decide) (by decide)
    ⟨[1], by decide⟩ ⟨[3], by decide⟩ rfl (by decide) rfl (by decide) (by decide)
    rfl (by decide) rfl).2.2.2

end PawSync
